import Mathlib

/-! DRM output commit state machine.

A shallow embedding of `src/plugins/platforms/drm/drm_output.cpp` (KWin DRM
platform plugin).  The C++ object `DrmOutput` becomes a record; every member
function becomes a pure function on that record.  Calls that leave the file
(libdrm, the backend, the Wayland output object, the render loop) are appended
to an event log carried in the record, and their results are read from a
`World` value which is an argument of every operation.
-/

namespace KWin

/-! ## Plain data -/

/-- The fifteen members of `drmModeModeInfo`: fourteen integers and the
`char name[32]` array, kept as raw bytes. -/
structure Mode where
  clock : Nat
  hdisplay : Nat
  hsync_start : Nat
  hsync_end : Nat
  htotal : Nat
  hskew : Nat
  vdisplay : Nat
  vsync_start : Nat
  vsync_end : Nat
  vtotal : Nat
  vscan : Nat
  vrefresh : Nat
  flags : Nat
  type : Nat
  name : List Nat
deriving DecidableEq, Repr

/-- The C string held in a byte array: everything before the first NUL. -/
def cstr (bytes : List Nat) : List Nat :=
  bytes.takeWhile (fun b => b != 0)

/-- `qstrcmp(a, b) == 0` for two non-null C strings. -/
def qstrcmpEq (a b : List Nat) : Bool :=
  cstr a == cstr b

/-- `DrmOutput::DpmsMode`, the values of the connector DPMS property. -/
inductive DpmsMode where
  | On
  | Standby
  | Suspend
  | Off
deriving DecidableEq, Repr

/-- `DrmOutput::Transform` (`AbstractWaylandOutput::Transform`). -/
inductive Transform where
  | Normal
  | Rotated90
  | Rotated180
  | Rotated270
  | Flipped
  | Flipped90
  | Flipped180
  | Flipped270
deriving DecidableEq, Repr

/-- `DrmPlane::Transformation`, the rotations this file uses. -/
inductive PlaneTrans where
  | Rotate0
  | Rotate90
  | Rotate180
  | Rotate270
deriving DecidableEq, Repr

/-- `DrmOutput::AtomicCommitMode`. -/
inductive AtomicCommitMode where
  | Test
  | Real
deriving DecidableEq, Repr

/-- A `DrmBuffer`: its framebuffer id and its size.  A null
`QSharedPointer<DrmBuffer>` is `none : Option DrmBuffer`. -/
structure DrmBuffer where
  bufferId : Nat
  width : Int
  height : Int
deriving DecidableEq, Repr

/-- A `DrmDumbBuffer` of the cursor pair: kernel handle, size, and the mapped
image (its device pixel ratio, a `qreal`, given by its exact value as the
fraction `dprNum / dprDen`, and a tag naming the picture last painted into it,
`0` for transparent). -/
structure DrmDumbBuffer where
  handle : Nat
  width : Nat
  height : Nat
  dprNum : Nat
  dprDen : Nat
  picture : Nat
deriving DecidableEq, Repr

/-- The cursor sprite `Cursors::self()->currentCursor()->image()`: its size in
pixels, its device pixel ratio (the exact value of the `qreal` as the fraction
`dprNum / dprDen`) and a tag naming the picture. -/
structure CursorImage where
  width : Nat
  height : Nat
  dprNum : Nat
  dprDen : Nat
  picture : Nat
deriving DecidableEq, Repr

/-- The members of `DrmCrtc` this file reaches: the two buffer slots. -/
structure DrmCrtc where
  id : Nat
  current : Option DrmBuffer
  next : Option DrmBuffer
deriving DecidableEq, Repr

/-- The members of `DrmPlane` this file reaches: the two buffer slots, the
transformation in use, the supported ones, and the nine placement
properties written by `setValue`. -/
structure DrmPlane where
  current : Option DrmBuffer
  next : Option DrmBuffer
  transformation : PlaneTrans
  supportedTransformations : List PlaneTrans
  srcX : Int
  srcY : Int
  srcW : Int
  srcH : Int
  crtcX : Int
  crtcY : Int
  crtcW : Int
  crtcH : Int
  crtcId : Int
deriving DecidableEq, Repr

/-- An entry of `m_nextPlanesFlipList`.  The only `DrmPlane *` the file ever
appends is `m_primaryPlane`. -/
inductive PlaneRef where
  | primary
deriving DecidableEq, Repr

/-- The `m_lastWorkingState` member. -/
structure LastWorkingState where
  mode : Mode
  transform : Transform
  globalPos : Int × Int
  planeTransformations : PlaneTrans
  valid : Bool
deriving DecidableEq, Repr

/-- The objects whose `atomicPopulate` the file calls. -/
inductive DrmObject where
  | connector
  | crtc
  | plane
deriving DecidableEq, Repr

/-- Every call that leaves `drm_output.cpp`.  The first group are libdrm
calls (kernel calls); the second group are calls into collaborators. -/
inductive Event where
  | drmModeSetCursor (handle width height : Nat)
  | drmModeMoveCursor
  | drmModeConnectorSetProperty (value : DpmsMode)
  | drmModeSetCrtc (bufferId : Nat) (mode : Mode)
  | drmModePageFlip (bufferId : Nat)
  | drmModeAtomicAlloc
  | drmModeAtomicFree
  | drmModeCreatePropertyBlob (mode : Mode)
  | drmModeAtomicCommit (commitMode : AtomicCommitMode) (allowModeset nonblock flipEvent : Bool)
  | drmModeGetConnectorCurrent
  | drmModeGetConnector
  | atomicPopulate (obj : DrmObject)
  | crtcBlank
  | enableOutput (enable : Bool)
  | setDpmsMode (mode : DpmsMode)
  | createDpmsFilter
  | checkOutputsAreOn
  | renderLoopInhibit
  | renderLoopUninhibit
  | addRepaintFull
  | releaseGbm (bufferId : Nat)
  | deleteLater
  | setWaylandMode (width height : Nat) (refreshRate : Nat)
  | setRefreshRate (refreshRate : Nat)
  | screensChanged
deriving DecidableEq, Repr

/-- The libdrm calls among the events; `atomicPopulate` and `crtcBlank` are
calls into sibling objects, which may or may not reach the kernel. -/
def Event.isKernelCall : Event → Bool
  | .drmModeSetCursor _ _ _ => true
  | .drmModeMoveCursor => true
  | .drmModeConnectorSetProperty _ => true
  | .drmModeSetCrtc _ _ => true
  | .drmModePageFlip _ => true
  | .drmModeAtomicAlloc => true
  | .drmModeAtomicFree => true
  | .drmModeCreatePropertyBlob _ => true
  | .drmModeAtomicCommit _ _ _ _ => true
  | .drmModeGetConnectorCurrent => true
  | .drmModeGetConnector => true
  | _ => false

/-- An atomic commit request, test or real. -/
def Event.isAtomicCommit : Event → Bool
  | .drmModeAtomicCommit _ _ _ _ => true
  | _ => false

/-! ## The world outside the file -/

/-- Answers of everything `drm_output.cpp` calls but does not define.
`kernel log e` tells whether call `e`, issued after the calls in `log`,
succeeds.  `blank` is `DrmCrtc::blank`, whose body is in another file: the
function it applies to the CRTC.  `needsModeChange cur new` is
`DrmBuffer::needsModeChange`.  `modeSize`, `pixelSize`, the scale and the
cursor sprite are read from `AbstractWaylandOutput` and `Cursors`.
`qRoundDiv n num den` is the whole number `qRound(n / scale)` that Qt's
`QSize / qreal` computes, in double precision, for a length of `n` pixels and
the scale factor `num / den`. -/
structure World where
  kernel : List Event → Event → Bool
  sessionActive : Bool
  compositor : Bool
  isCursorHidden : Bool
  usesSoftwareCursor : Bool
  swRotationsOnly : Bool
  cursorImage : Option CursorImage
  scaleNum : Nat
  scaleDen : Nat
  modeSize : Int × Int
  pixelSize : Int × Int
  needsModeChange : DrmBuffer → DrmBuffer → Bool
  blank : DrmCrtc → DrmCrtc
  qRoundDiv : Nat → Nat → Nat → Nat
  blobId : Nat
  connectorCurrentModes : List Mode
  connectorModes : List Mode

/-! ## The output object -/

/-- The members of `DrmOutput` (and the few of its base class and of
`DrmGpu` that the file reads), plus the log of outgoing calls. -/
structure DrmOutput where
  atomicModeSetting : Bool
  useEglStreams : Bool
  hasCrtc : Bool
  crtc : DrmCrtc
  primaryPlane : Option DrmPlane
  connHasDpms : Bool
  enabled : Bool
  mode : Mode
  transform : Transform
  globalPos : Int × Int
  dpmsMode : DpmsMode
  dpmsModePending : DpmsMode
  pageFlipPending : Bool
  deleted : Bool
  modesetRequested : Bool
  atomicOffPending : Bool
  nextPlanesFlipList : List PlaneRef
  lastWorkingState : LastWorkingState
  cursor0 : Option DrmDumbBuffer
  cursor1 : Option DrmDumbBuffer
  cursorIndex : Nat
  hasNewCursor : Bool
  blobId : Nat
  log : List Event
deriving DecidableEq, Repr

namespace DrmOutput

/-- Record an outgoing call. -/
def emit (s : DrmOutput) (e : Event) : DrmOutput :=
  { s with log := s.log ++ [e] }

/-- Issue a call whose result matters: the answer of the world, and the
state with the call recorded. -/
def call (w : World) (s : DrmOutput) (e : Event) : Bool × DrmOutput :=
  (w.kernel s.log e, s.emit e)

/-- Apply `f` to the primary plane when there is one. -/
def onPlane (s : DrmOutput) (f : DrmPlane → DrmPlane) : DrmOutput :=
  { s with primaryPlane := s.primaryPlane.map f }

/-- The value of `m_primaryPlane->next()`; a missing plane has no buffer. -/
def planeNext (s : DrmOutput) : Option DrmBuffer :=
  s.primaryPlane.bind (fun p => p.next)

/-- The value of `m_primaryPlane->current()`. -/
def planeCurrent (s : DrmOutput) : Option DrmBuffer :=
  s.primaryPlane.bind (fun p => p.current)

/-- Element `m_cursor[i]`. -/
def cursorAt (s : DrmOutput) (i : Nat) : Option DrmDumbBuffer :=
  if i = 0 then s.cursor0 else s.cursor1

/-- Store into `m_cursor[i]`. -/
def setCursorAt (s : DrmOutput) (i : Nat) (c : Option DrmDumbBuffer) : DrmOutput :=
  if i = 0 then { s with cursor0 := c } else { s with cursor1 := c }

end DrmOutput

/-! ## Mode helpers -/

/-- Translation of `refreshRateForMode`: `clock` is 32 bit, the totals and
`vscan` 16 bit, the arithmetic 64 bit.  `DRM_MODE_FLAG_INTERLACE` is bit 4
and `DRM_MODE_FLAG_DBLSCAN` bit 5 of `flags`. -/
def refreshRateForMode (m : Mode) : Nat :=
  let r0 := ((m.clock * 1000000 / m.htotal + m.vtotal / 2) / m.vtotal) % 2 ^ 64
  let r1 := if m.flags.testBit 4 then (r0 * 2) % 2 ^ 64 else r0
  let r2 := if m.flags.testBit 5 then r1 / 2 else r1
  if m.vscan > 1 then r2 / m.vscan else r2

/-- Translation of `DrmOutput::isCurrentMode`. -/
def isCurrentMode (s : DrmOutput) (mode : Mode) : Bool :=
  mode.clock == s.mode.clock
    && mode.hdisplay == s.mode.hdisplay
    && mode.hsync_start == s.mode.hsync_start
    && mode.hsync_end == s.mode.hsync_end
    && mode.htotal == s.mode.htotal
    && mode.hskew == s.mode.hskew
    && mode.vdisplay == s.mode.vdisplay
    && mode.vsync_start == s.mode.vsync_start
    && mode.vsync_end == s.mode.vsync_end
    && mode.vtotal == s.mode.vtotal
    && mode.vscan == s.mode.vscan
    && mode.vrefresh == s.mode.vrefresh
    && mode.flags == s.mode.flags
    && mode.type == s.mode.type
    && qstrcmpEq mode.name s.mode.name

/-! ## Cursor -/

/-- Translation of `DrmOutput::hideCursor`. -/
def hideCursor (w : World) (s : DrmOutput) : Bool × DrmOutput :=
  s.call w (.drmModeSetCursor 0 0 0)

/-- Translation of `DrmOutput::showCursor(DrmDumbBuffer *)`. -/
def showCursorBuffer (w : World) (s : DrmOutput) (c : DrmDumbBuffer) : Bool × DrmOutput :=
  s.call w (.drmModeSetCursor c.handle c.width c.height)

/-- Translation of `DrmOutput::showCursor()`.  An empty slot cannot be
dereferenced; the model then does nothing and reports failure. -/
def showCursor (w : World) (s : DrmOutput) : Bool × DrmOutput :=
  if s.deleted then (false, s)
  else
    match s.cursorAt s.cursorIndex with
    | none => (false, s)
    | some c =>
      let r := showCursorBuffer w s c
      if !r.1 then (false, r.2)
      else if r.2.hasNewCursor then
        (true, { r.2 with cursorIndex := (r.2.cursorIndex + 1) % 2, hasNewCursor := false })
      else (true, r.2)

/-- `QRect::contains(const QRect &)` for two rectangles at the origin with the
given non-negative sizes (`x1 = y1 = 0`, `x2 = w - 1`, `y2 = h - 1`): false
when either is null, else the right and bottom edges are compared. -/
def rectContains (bw bh sw sh : Int) : Bool :=
  if (bw = 0 ∧ bh = 0) ∨ (sw = 0 ∧ sh = 0) then false
  else if sw - 1 > bw - 1 then false
  else if sh - 1 > bh - 1 then false
  else true

/-- Translation of `isCursorSpriteCompatible`: the two rectangles are built
from the sizes divided by the device pixel ratios, as `QSize / qreal` gives
them. -/
def isCursorSpriteCompatible (w : World) (buffer : DrmDumbBuffer) (sprite : CursorImage) : Bool :=
  rectContains (w.qRoundDiv buffer.width buffer.dprNum buffer.dprDen)
    (w.qRoundDiv buffer.height buffer.dprNum buffer.dprDen)
    (w.qRoundDiv sprite.width sprite.dprNum sprite.dprDen)
    (w.qRoundDiv sprite.height sprite.dprNum sprite.dprDen)

/-- Translation of `DrmOutput::updateCursor`. -/
def updateCursor (w : World) (s : DrmOutput) : Bool × DrmOutput :=
  if s.deleted then (false, s)
  else
    match w.cursorImage with
    | none => (false, s)
    | some cursorImage =>
      match s.cursorAt s.cursorIndex with
      | none => (false, s)
      | some c0 =>
        let c := { c0 with dprNum := w.scaleNum, dprDen := w.scaleDen }
        let s1 := s.setCursorAt s.cursorIndex (some c)
        if !isCursorSpriteCompatible w c cursorImage then (false, s1)
        else
          let s2 := { s1 with hasNewCursor := true }
          (true, s2.setCursorAt s2.cursorIndex (some { c with picture := cursorImage.picture }))

/-! ## Power state -/

/-- Translation of `DrmOutput::dpmsFinishOn`. -/
def dpmsFinishOn (w : World) (s : DrmOutput) : DrmOutput :=
  let s1 := (s.emit (.setDpmsMode .On)).emit .checkOutputsAreOn
  let s2 := { s1.emit .crtcBlank with crtc := w.blank s1.crtc }
  let s3 := s2.emit .renderLoopUninhibit
  if w.compositor then s3.emit .addRepaintFull else s3

/-- Translation of `DrmOutput::dpmsFinishOff`. -/
def dpmsFinishOff (s : DrmOutput) : DrmOutput :=
  let s1 :=
    if s.enabled then (s.emit (.setDpmsMode s.dpmsModePending)).emit .createDpmsFilter
    else s.emit (.setDpmsMode .Off)
  s1.emit .renderLoopInhibit

/-- Translation of `DrmOutput::dpmsLegacyApply`. -/
def dpmsLegacyApply (w : World) (s : DrmOutput) : Bool × DrmOutput :=
  let r := s.call w (.drmModeConnectorSetProperty s.dpmsModePending)
  if !r.1 then (false, { r.2 with dpmsModePending := r.2.dpmsMode })
  else
    let s1 := if r.2.dpmsModePending = .On then dpmsFinishOn w r.2 else dpmsFinishOff r.2
    (true, { s1 with dpmsMode := s1.dpmsModePending })

/-! ## Atomic transactions -/

/-- The part of `QRect` used by `atomicReqModesetPopulate`: the corner
coordinates Qt stores. -/
structure QRect where
  x1 : Int
  y1 : Int
  x2 : Int
  y2 : Int
deriving DecidableEq, Repr

/-- `QRect(QPoint(0, 0), size)`. -/
def QRect.ofSize (size : Int × Int) : QRect :=
  { x1 := 0, y1 := 0, x2 := size.1 - 1, y2 := size.2 - 1 }

/-- `QRect::width`. -/
def QRect.width (r : QRect) : Int := r.x2 - r.x1 + 1

/-- `QRect::height`. -/
def QRect.height (r : QRect) : Int := r.y2 - r.y1 + 1

/-- `QRect::setSize`: the top-left corner stays. -/
def QRect.setSize (r : QRect) (size : Int × Int) : QRect :=
  { r with x2 := size.1 + r.x1 - 1, y2 := size.2 + r.y1 - 1 }

/-- `QRect::setX`: moves the left edge only. -/
def QRect.setX (r : QRect) (x : Int) : QRect := { r with x1 := x }

/-- `QRect::setY`: moves the top edge only. -/
def QRect.setY (r : QRect) (y : Int) : QRect := { r with y1 := y }

/-- `QSize::scaled(target, Qt::KeepAspectRatio)` applied to `size`. -/
def scaledKeepAspect (size target : Int × Int) : Int × Int :=
  if size.1 = 0 ∨ size.2 = 0 then target
  else
    let rw := Int.tdiv (target.2 * size.1) size.2
    if rw ≤ target.1 then (rw, target.2)
    else (target.1, Int.tdiv (target.1 * size.2) size.1)

/-- Translation of `outputToPlaneTransform`. -/
def outputToPlaneTransform : Transform → PlaneTrans
  | .Normal => .Rotate0
  | .Flipped => .Rotate0
  | .Rotated90 => .Rotate90
  | .Flipped90 => .Rotate90
  | .Rotated180 => .Rotate180
  | .Flipped180 => .Rotate180
  | .Rotated270 => .Rotate270
  | .Flipped270 => .Rotate270

/-- Translation of `DrmOutput::hardwareTransforms`. -/
def hardwareTransforms (s : DrmOutput) : Bool :=
  match s.primaryPlane with
  | none => false
  | some p => p.transformation == outputToPlaneTransform s.transform

/-- The target rectangle computed in the `enable` branch of
`atomicReqModesetPopulate`. -/
def targetRectFor (mSize sourceSize : Int × Int) : QRect :=
  let targetRect := QRect.ofSize mSize
  if mSize ≠ sourceSize then
    let t1 := targetRect.setSize (scaledKeepAspect sourceSize mSize)
    let t2 := t1.setX (Int.tdiv (mSize.1 - t1.width) 2)
    t2.setY (Int.tdiv (mSize.2 - t2.height) 2)
  else targetRect

/-- Translation of `DrmOutput::atomicReqModesetPopulate`.  The values written
into the connector and CRTC property caches are not kept; `m_blobId` is. -/
def atomicReqModesetPopulate (w : World) (s : DrmOutput) (enable : Bool) : Bool × DrmOutput :=
  let s1 :=
    if enable then
      let mSize := w.modeSize
      let bufferSize :=
        match s.planeNext with
        | some b => (b.width, b.height)
        | none => w.pixelSize
      let sourceSize := if hardwareTransforms s then bufferSize else mSize
      let targetRect := targetRectFor mSize sourceSize
      s.onPlane (fun p => { p with
        srcX := 0, srcY := 0,
        srcW := sourceSize.1 * 65536, srcH := sourceSize.2 * 65536,
        crtcX := targetRect.x1, crtcY := targetRect.y1,
        crtcW := targetRect.width, crtcH := targetRect.height,
        crtcId := s.crtc.id })
    else
      s.onPlane (fun p => { p with
        current := none, next := none,
        srcX := 0, srcY := 0, srcW := 0, srcH := 0,
        crtcX := 0, crtcY := 0, crtcW := 0, crtcH := 0, crtcId := 0 })
  let r1 := s1.call w (.atomicPopulate .connector)
  let r2 := r1.2.call w (.atomicPopulate .crtc)
  (r1.1 && r2.1, r2.2)

/-- The loop `for (DrmPlane *p : m_nextPlanesFlipList) p->setNext(nullptr)`. -/
def resetFlipListNext (s : DrmOutput) : DrmOutput :=
  s.nextPlanesFlipList.foldl (fun acc _ => acc.onPlane (fun p => { p with next := none })) s

/-- The lambda `errorHandler` of `doAtomicCommit`; `req` tells whether the
request was allocated. -/
def errorHandler (s : DrmOutput) (req : Bool) : DrmOutput :=
  let s1 := if req then s.emit .drmModeAtomicFree else s
  let s2 :=
    if s1.dpmsMode ≠ s1.dpmsModePending then
      let s2a := { s1 with dpmsModePending := s1.dpmsMode }
      if s2a.dpmsMode ≠ .On then dpmsFinishOff s2a else s2a
    else s1
  { resetFlipListNext s2 with nextPlanesFlipList := [] }

/-- The loop of `doAtomicCommit` calling `atomicPopulate` on every queued
plane, last entry first; every call is made, the results are and-ed. -/
def populatePlanes (w : World) (s : DrmOutput) : Bool × DrmOutput :=
  s.nextPlanesFlipList.reverse.foldl
    (fun acc _ =>
      let r := acc.2.call w (.atomicPopulate .plane)
      (acc.1 && r.1, r.2))
    (true, s)

/-- The first block under `if (m_modesetRequested)` in `doAtomicCommit`: when
the output is to be on, a property blob is created from `m_mode`. -/
def createModeBlob (w : World) (s : DrmOutput) : Bool × DrmOutput :=
  if s.modesetRequested && s.dpmsModePending == .On then
    match s.call w (.drmModeCreatePropertyBlob s.mode) with
    | (true, s1) => (true, { s1 with blobId := w.blobId })
    | (false, s1) => (false, s1)
  else (true, s)

/-- The second block under `if (m_modesetRequested)` in `doAtomicCommit`. -/
def populateModeset (w : World) (s : DrmOutput) : Bool × DrmOutput :=
  if s.modesetRequested then atomicReqModesetPopulate w s (s.dpmsModePending == .On)
  else (true, s)

/-- The `drmModeAtomicCommit` call with the `flags` that `doAtomicCommit`
computes: `ALLOW_MODESET` when a modeset is requested; for a real commit of
an output that is to be on, `NONBLOCK` unless a modeset is allowed, and
`PAGE_FLIP_EVENT` unless EGL streams are in use; `TEST_ONLY` for a test. -/
def commitRequest (mode : AtomicCommitMode) (s : DrmOutput) : Event :=
  let allowModeset := s.modesetRequested
  let real := mode == .Real
  let isOn := s.dpmsModePending == .On
  .drmModeAtomicCommit mode allowModeset (real && isOn && !allowModeset)
    (real && isOn && !s.useEglStreams)

/-- Translation of `DrmOutput::doAtomicCommit`. -/
def doAtomicCommit (w : World) (mode : AtomicCommitMode) (s : DrmOutput) : Bool × DrmOutput :=
  match s.call w .drmModeAtomicAlloc with
  | (false, a) => (false, errorHandler a false)
  | (true, a) =>
  match createModeBlob w a with
  | (false, b) => (false, errorHandler b true)
  | (true, b) =>
  match populateModeset w b with
  | (false, p) => (false, errorHandler p true)
  | (true, p) =>
  match populatePlanes w p with
  | (false, q) => (false, errorHandler q true)
  | (true, q) =>
  match q.call w (commitRequest mode p) with
  | (false, c) => (false, errorHandler c true)
  | (true, c) =>
    let s4 :=
      if mode == .Real && p.modesetRequested then
        { c with modesetRequested := false, dpmsMode := c.dpmsModePending }
      else c
    (true, s4.emit .drmModeAtomicFree)

/-- Translation of `DrmOutput::dpmsAtomicOff`. -/
def dpmsAtomicOff (w : World) (s : DrmOutput) : Bool × DrmOutput :=
  let s1 := { s with atomicOffPending := false }
  let s2 := s1.onPlane (fun p => { p with next := none })
  let s3 := { s2 with nextPlanesFlipList := s2.nextPlanesFlipList ++ [.primary] }
  let t := doAtomicCommit w .Test s3
  if !t.1 then (false, t.2)
  else
    let r := doAtomicCommit w .Real t.2
    if !r.1 then (false, r.2)
    else (true, dpmsFinishOff { r.2 with nextPlanesFlipList := [] })

/-! ## Mode selection -/

/-- Translation of `DrmOutput::setWaylandMode`. -/
def setWaylandMode (s : DrmOutput) : DrmOutput :=
  s.emit (.setWaylandMode s.mode.hdisplay s.mode.vdisplay (refreshRateForMode s.mode))

/-- Translation of `DrmOutput::updateMode(int modeIndex)`; the mode list is
the one `drmModeGetConnector` returns. -/
def updateModeIndex (w : World) (s : DrmOutput) (modeIndex : Nat) : DrmOutput :=
  let s1 := s.emit .drmModeGetConnector
  match w.connectorModes.get? modeIndex with
  | none => s1
  | some m =>
    if isCurrentMode s1 m then s1
    else setWaylandMode { s1 with mode := m, modesetRequested := true }

/-- The comparison `hdisplay == width && vdisplay == height && vrefresh ==
refreshRate` that `updateMode` applies to the active mode and to every entry
of the mode list. -/
def Mode.fits (m : Mode) (width height refreshRate : Nat) : Bool :=
  m.hdisplay == width && m.vdisplay == height && m.vrefresh == refreshRate

/-- The loop of `updateMode(width, height, refreshRate)`: index of the first
entry of `modes`, counted from `i`, equal to the request in all three fields. -/
def findFittingMode (width height refreshRate : Nat) : List Mode → Nat → Option Nat
  | [], _ => none
  | m :: rest, i =>
    if m.fits width height refreshRate then some i
    else findFittingMode width height refreshRate rest (i + 1)

/-- Translation of `DrmOutput::updateMode(uint32_t, uint32_t, uint32_t)`; the
mode list searched is the one `drmModeGetConnectorCurrent` returns. -/
def updateMode (w : World) (s : DrmOutput) (width height refreshRate : Nat) : DrmOutput :=
  if s.mode.fits width height refreshRate then s
  else
    let s1 := s.emit .drmModeGetConnectorCurrent
    match findFittingMode width height refreshRate w.connectorCurrentModes 0 with
    | some i => updateModeIndex w s1 i
    | none => s1

/-- Translation of `DrmOutput::updateTransform`. -/
def updateTransform (w : World) (s : DrmOutput) (transform : Transform) : DrmOutput :=
  let planeTransform := outputToPlaneTransform transform
  let isPortrait := transform == .Rotated90 || transform == .Flipped90
    || transform == .Rotated270 || transform == .Flipped270
  let s1 := s.onPlane (fun p =>
    if !w.swRotationsOnly && p.supportedTransformations.contains planeTransform && !isPortrait then
      { p with transformation := planeTransform }
    else { p with transformation := .Rotate0 })
  let s2 := { s1 with modesetRequested := true }
  if !w.isCursorHidden && !w.usesSoftwareCursor then
    (showCursor w (updateCursor w s2).2).2
  else s2

/-! ## Presentation -/

/-- Modelled from the spec: `DrmPlane::flipBuffer`, whose body is in
drm_object_plane.cpp, not part of the sources at hand.  The spec has the
completion callback promote a plane's "next" buffer to "current", and that
only if a "next" buffer actually exists: with a "next" buffer, it replaces
"current" and the "next" slot becomes empty; with none, the plane is left as
it is. -/
def DrmPlane.flipBuffer (p : DrmPlane) : DrmPlane :=
  match p.next with
  | some b => { p with current := some b, next := none }
  | none => p

/-- Modelled from the spec: `DrmCrtc::flipBuffer`, whose body is in
drm_object_crtc.cpp, not part of the sources at hand.  The spec has promotion
done only if a "next" buffer actually exists, a flip with no new buffer being
a no-op for promotion: with a "next" buffer, it replaces "current" and the
"next" slot becomes empty; with none, both slots are left as they are. -/
def DrmCrtc.flipBuffer (c : DrmCrtc) : DrmCrtc :=
  match c.next with
  | some b => { c with current := some b, next := none }
  | none => c

/-- Translation of `DrmOutput::setModeLegacy`. -/
def setModeLegacy (w : World) (s : DrmOutput) (buffer : DrmBuffer) : Bool × DrmOutput :=
  s.call w (.drmModeSetCrtc buffer.bufferId s.mode)

/-- The test `!m_crtc->current() || m_crtc->current()->needsModeChange(buffer)`
of `presentLegacy`. -/
def modeChangeNeeded (w : World) (s : DrmOutput) (buffer : DrmBuffer) : Bool :=
  match s.crtc.current with
  | none => true
  | some cur => w.needsModeChange cur buffer

/-- Translation of `DrmOutput::presentLegacy`. -/
def presentLegacy (w : World) (s : DrmOutput) (buffer : DrmBuffer) : Bool × DrmOutput :=
  if s.crtc.next.isSome then (false, s)
  else if !w.sessionActive then
    (false, { s with crtc := { s.crtc with next := some buffer } })
  else
    let m := if modeChangeNeeded w s buffer then setModeLegacy w s buffer else (true, s)
    if !m.1 then (false, m.2)
    else
      let f := m.2.call w (.drmModePageFlip buffer.bufferId)
      if f.1 then
        (true, { f.2 with crtc := { f.2.crtc with next := some buffer }, pageFlipPending := true })
      else (false, f.2)

/-- The block of `presentAtomically` entered when the test commit fails:
going back to the last working state. -/
def rollback (w : World) (s : DrmOutput) : DrmOutput :=
  if s.lastWorkingState.valid then
    let s1 := { s with mode := s.lastWorkingState.mode,
                       transform := s.lastWorkingState.transform,
                       globalPos := s.lastWorkingState.globalPos }
    let s2 := s1.onPlane
      (fun p => { p with transformation := s1.lastWorkingState.planeTransformations })
    let s3 := { s2 with modesetRequested := true }
    let s4 := if !w.isCursorHidden then (showCursor w (updateCursor w s3).2).2 else s3
    (setWaylandMode s4).emit .screensChanged
  else s

/-- The two statements of `presentAtomically` before the test commit:
`m_primaryPlane->setNext(buffer); m_nextPlanesFlipList << m_primaryPlane`. -/
def stakeBuffer (s : DrmOutput) (buffer : DrmBuffer) : DrmOutput :=
  let s1 := s.onPlane (fun p => { p with next := some buffer })
  { s1 with nextPlanesFlipList := s1.nextPlanesFlipList ++ [.primary] }

/-- The block of `presentAtomically` under `if (wasModeset)`: the current
mode, transform and position become the last working state. -/
def storeWorkingState (s : DrmOutput) : DrmOutput :=
  let lws := { s.lastWorkingState with
    mode := s.mode, transform := s.transform, globalPos := s.globalPos }
  let lws1 :=
    match s.primaryPlane with
    | some p => { lws with planeTransformations := p.transformation }
    | none => lws
  ({ s with lastWorkingState := { lws1 with valid := true } }).emit
    (.setRefreshRate (refreshRateForMode s.mode))

/-- Translation of `DrmOutput::presentAtomically`. -/
def presentAtomically (w : World) (s : DrmOutput) (buffer : DrmBuffer) : Bool × DrmOutput :=
  if !w.sessionActive then (false, s)
  else if s.pageFlipPending then (false, s)
  else if s.useEglStreams && !s.modesetRequested then
    (true, { s with pageFlipPending := true })
  else
    match doAtomicCommit w .Test (stakeBuffer s buffer) with
    | (false, t) => (false, rollback w t)
    | (true, t) =>
      let wasModeset := t.modesetRequested
      match doAtomicCommit w .Real t with
      | (false, r) => (false, r)
      | (true, r) =>
        let s3 := if wasModeset then storeWorkingState r else r
        (true, { s3 with pageFlipPending := true })

/-- Translation of `DrmOutput::present`. -/
def present (w : World) (s : DrmOutput) (buffer : Option DrmBuffer) : Bool × DrmOutput :=
  match buffer with
  | none => (false, s)
  | some b =>
    if b.bufferId = 0 then (false, s)
    else if s.dpmsModePending ≠ .On then (false, s)
    else if s.atomicModeSetting then presentAtomically w s b else presentLegacy w s b

/-- The loop `for (DrmPlane *p : m_nextPlanesFlipList) p->flipBuffer()`. -/
def flipPlanes (s : DrmOutput) : DrmOutput :=
  s.nextPlanesFlipList.foldl (fun acc _ => acc.onPlane DrmPlane.flipBuffer) s

/-- Translation of `DrmOutput::pageFlipped`. -/
def pageFlipped (w : World) (s : DrmOutput) : DrmOutput :=
  let s0 := { s with pageFlipPending := false }
  if s0.deleted then s0.emit .deleteLater
  else if !s0.hasCrtc then s0
  else if s0.atomicModeSetting && s0.planeNext.isNone then
    match s0.planeCurrent with
    | some b => s0.emit (.releaseGbm b.bufferId)
    | none => s0
  else
    let s1 :=
      if s0.atomicModeSetting then
        { flipPlanes s0 with nextPlanesFlipList := [] }
      else
        let s0a :=
          match s0.crtc.next, s0.crtc.current with
          | none, some b => s0.emit (.releaseGbm b.bufferId)
          | _, _ => s0
        { s0a with crtc := s0a.crtc.flipBuffer }
    if s1.atomicOffPending then (dpmsAtomicOff w s1).2 else s1

/-! ## Enabling, power requests, teardown -/

/-- Translation of `DrmOutput::atomicEnable`. -/
def atomicEnable (w : World) (s : DrmOutput) : DrmOutput :=
  let s1 := { s with modesetRequested := true }
  let s2 := if s1.atomicOffPending then { s1 with atomicOffPending := false } else s1
  let s3 := s2.emit (.enableOutput true)
  if w.compositor then s3.emit .addRepaintFull else s3

/-- Translation of `DrmOutput::atomicDisable`. -/
def atomicDisable (w : World) (s : DrmOutput) : DrmOutput :=
  let s1 := { s with modesetRequested := true }
  let s2 := { s1.emit (.enableOutput false) with atomicOffPending := true }
  if !s2.pageFlipPending then (dpmsAtomicOff w s2).2 else s2

/-- Translation of `DrmOutput::updateEnablement`. -/
def updateEnablement (w : World) (s : DrmOutput) (enable : Bool) : DrmOutput :=
  let s1 := { s with dpmsModePending := if enable then .On else .Off }
  if s1.atomicModeSetting then
    if enable then atomicEnable w s1 else atomicDisable w s1
  else
    let r := dpmsLegacyApply w s1
    if r.1 then r.2.emit (.enableOutput enable) else r.2

/-- Translation of `DrmOutput::updateDpms`. -/
def updateDpms (w : World) (s : DrmOutput) (mode : DpmsMode) : DrmOutput :=
  if !s.connHasDpms || !s.enabled then s
  else if mode = s.dpmsModePending then s.emit (.setDpmsMode mode)
  else
    let s1 := { s with dpmsModePending := mode }
    if s1.atomicModeSetting then
      let s2 := { s1 with modesetRequested := true }
      if mode = .On then
        let s3 := if s2.atomicOffPending then { s2 with atomicOffPending := false } else s2
        dpmsFinishOn w s3
      else
        let s3 := { s2 with atomicOffPending := true }
        if !s3.pageFlipPending then (dpmsAtomicOff w s3).2 else s3
    else (dpmsLegacyApply w s1).2

/-- Translation of `DrmOutput::teardown`. -/
def teardown (w : World) (s : DrmOutput) : DrmOutput :=
  if s.deleted then s
  else
    let s1 := { s with deleted := true }
    let s2 := (hideCursor w s1).2
    let s3 := { s2.emit .crtcBlank with crtc := w.blank s2.crtc }
    let s4 := s3.onPlane (fun p => { p with current := none })
    let s5 := { s4 with cursor0 := none, cursor1 := none }
    if !s5.pageFlipPending then s5.emit .deleteLater else s5

/-! ## Runs of the output -/

/-- The entry points of the output. -/
inductive Op where
  | teardown
  | updateEnablement (enable : Bool)
  | updateDpms (mode : DpmsMode)
  | updateTransform (transform : Transform)
  | updateMode (width height refreshRate : Nat)
  | updateModeIndex (modeIndex : Nat)
  | pageFlipped
  | present (buffer : Option DrmBuffer)
  | showCursor
  | updateCursor
  | hideCursor
deriving DecidableEq, Repr

/-- One entry point applied to the output, in a given world. -/
def step (w : World) (s : DrmOutput) : Op → DrmOutput
  | .teardown => teardown w s
  | .updateEnablement e => updateEnablement w s e
  | .updateDpms m => updateDpms w s m
  | .updateTransform t => updateTransform w s t
  | .updateMode a b c => updateMode w s a b c
  | .updateModeIndex i => updateModeIndex w s i
  | .pageFlipped => pageFlipped w s
  | .present b => (present w s b).2
  | .showCursor => (showCursor w s).2
  | .updateCursor => (updateCursor w s).2
  | .hideCursor => (hideCursor w s).2

/-- A run: entry points applied in order, each in its own world. -/
def run (s : DrmOutput) : List (World × Op) → DrmOutput
  | [] => s
  | (w, op) :: rest => run (step w s op) rest

/-- The events a call added: what the log of `s1` holds beyond that of `s`. -/
def newEvents (s s1 : DrmOutput) : List Event :=
  s1.log.drop s.log.length

/-- The fourteen integer members of a mode descriptor, in declaration order. -/
def Mode.numericField (m : Mode) : Fin 14 → Nat
  | 0 => m.clock
  | 1 => m.hdisplay
  | 2 => m.hsync_start
  | 3 => m.hsync_end
  | 4 => m.htotal
  | 5 => m.hskew
  | 6 => m.vdisplay
  | 7 => m.vsync_start
  | 8 => m.vsync_end
  | 9 => m.vtotal
  | 10 => m.vscan
  | 11 => m.vrefresh
  | 12 => m.flags
  | 13 => m.type

/-- The descriptor `m` with integer member `k` replaced by `v`. -/
def Mode.setNumericField (m : Mode) (k : Fin 14) (v : Nat) : Mode :=
  match k with
  | 0 => { m with clock := v }
  | 1 => { m with hdisplay := v }
  | 2 => { m with hsync_start := v }
  | 3 => { m with hsync_end := v }
  | 4 => { m with htotal := v }
  | 5 => { m with hskew := v }
  | 6 => { m with vdisplay := v }
  | 7 => { m with vsync_start := v }
  | 8 => { m with vsync_end := v }
  | 9 => { m with vtotal := v }
  | 10 => { m with vscan := v }
  | 11 => { m with vrefresh := v }
  | 12 => { m with flags := v }
  | 13 => { m with type := v }

/-- A 1920x1080 at 60 Hz descriptor (CEA timing), name "1920x1080". -/
def mode1080 : Mode :=
  { clock := 148500, hdisplay := 1920, hsync_start := 2008, hsync_end := 2052,
    htotal := 2200, hskew := 0, vdisplay := 1080, vsync_start := 1084,
    vsync_end := 1089, vtotal := 1125, vscan := 0, vrefresh := 60, flags := 5,
    type := 72, name := [49, 57, 50, 48, 120, 49, 48, 56, 48, 0] }

/-- A 2560x1440 at 60 Hz descriptor, name "2560x1440". -/
def mode1440 : Mode :=
  { clock := 241500, hdisplay := 2560, hsync_start := 2608, hsync_end := 2640,
    htotal := 2720, hskew := 0, vdisplay := 1440, vsync_start := 1443,
    vsync_end := 1448, vtotal := 1481, vscan := 0, vrefresh := 60, flags := 9,
    type := 64, name := [50, 53, 54, 48, 120, 49, 52, 52, 48, 0] }

/-- An output as it is before any entry point ran: legacy or atomic as
asked, enabled, powered on, 1080p active, nothing pending, empty slots. -/
def freshOutput (atomic : Bool) : DrmOutput :=
  { atomicModeSetting := atomic, useEglStreams := false, hasCrtc := true,
    crtc := { id := 41, current := none, next := none },
    primaryPlane := some
      { current := none, next := none, transformation := .Rotate0,
        supportedTransformations := [.Rotate0, .Rotate180],
        srcX := 0, srcY := 0, srcW := 0, srcH := 0,
        crtcX := 0, crtcY := 0, crtcW := 0, crtcH := 0, crtcId := 0 },
    connHasDpms := true, enabled := true, mode := mode1080,
    transform := .Normal, globalPos := (0, 0),
    dpmsMode := .On, dpmsModePending := .On,
    pageFlipPending := false, deleted := false, modesetRequested := false,
    atomicOffPending := false, nextPlanesFlipList := [],
    lastWorkingState :=
      { mode := mode1080, transform := .Normal, globalPos := (0, 0),
        planeTransformations := .Rotate0, valid := false },
    cursor0 := some { handle := 7, width := 64, height := 64, dprNum := 1, dprDen := 1, picture := 0 },
    cursor1 := some { handle := 8, width := 64, height := 64, dprNum := 1, dprDen := 1, picture := 0 },
    cursorIndex := 0, hasNewCursor := false, blobId := 0, log := [] }

/-- The exact quotient `n / (num / den)` rounded half up to a whole number.
The example worlds use it for `qRoundDiv`: their quotients (32, 42.67, 43, 64
and 0.33) are far from a half-integer, and there the double-precision
computation of `qRound(n / scale)` gives the same whole number. -/
def divRound (n num den : Nat) : Nat :=
  (2 * n * den + num) / (2 * num)

/-- A world in which every call succeeds and the session is active; `blank`
leaves the CRTC alone. -/
def calmWorld : World :=
  { kernel := fun _ _ => true, sessionActive := true, compositor := true,
    isCursorHidden := true, usesSoftwareCursor := false, swRotationsOnly := false,
    cursorImage := none, scaleNum := 1, scaleDen := 1,
    modeSize := (1920, 1080), pixelSize := (1920, 1080),
    needsModeChange := fun _ _ => false, blank := fun c => c, qRoundDiv := divRound,
    blobId := 90,
    connectorCurrentModes := [mode1080, mode1440],
    connectorModes := [mode1080, mode1440] }

/-- A frame buffer to present. -/
def frameA : DrmBuffer := { bufferId := 11, width := 1920, height := 1080 }

/-- Another frame buffer. -/
def frameB : DrmBuffer := { bufferId := 12, width := 1920, height := 1080 }

/-- A world like `calmWorld` in which `DrmCrtc::blank` empties both buffer
slots of the CRTC. -/
def blankingWorld : World :=
  { calmWorld with blank := fun c => { c with current := none, next := none } }

/-- The active mode, transform and global position of the output. -/
def DrmOutput.config (s : DrmOutput) : Mode × Transform × (Int × Int) :=
  (s.mode, s.transform, s.globalPos)

/-- The mode, transform and global position held in a last-working snapshot. -/
def LastWorkingState.config (l : LastWorkingState) : Mode × Transform × (Int × Int) :=
  (l.mode, l.transform, l.globalPos)

/-- A world in which the kernel refuses every atomic commit, test or real,
and accepts everything else. -/
def refusingWorld : World :=
  { calmWorld with kernel := fun _ e => !e.isAtomicCommit }

/-- A 1920x1080 at 60 Hz descriptor with the 59.94 Hz pixel clock: it differs
from `mode1080` in the clock only. -/
def mode1080alt : Mode := { mode1080 with clock := 148352 }

/-- A world whose connector advertises `mode1080` only. -/
def oneModeWorld : World :=
  { calmWorld with connectorCurrentModes := [mode1080], connectorModes := [mode1080] }

/-- An atomic output that has presented `frameA` and awaits the completion. -/
def flipOutstanding : DrmOutput :=
  run (freshOutput true) [(calmWorld, .present (some frameA))]

/-- The refresh rate as the specification words it, in unbounded integers:
the base value `clock * 1000000 / htotal / vtotal`, rounded at the division by
`vtotal`; doubled for an interlaced mode; then halved for a double-scan mode;
then divided by the vertical-scan factor when that is above 1. -/
def refreshRateAsSpecified (m : Mode) : Nat :=
  let base := (m.clock * 1000000 / m.htotal + m.vtotal / 2) / m.vtotal
  let doubled := if m.flags.testBit 4 then base * 2 else base
  let halved := if m.flags.testBit 5 then doubled / 2 else doubled
  if m.vscan > 1 then halved / m.vscan else halved

/-- The outcomes of the five fallible steps of `doAtomicCommit`, each taken in
the state its predecessors leave: allocating the request, creating the mode
blob, populating connector and CRTC, populating the planes, and the commit
request itself. -/
def commitSteps (w : World) (mode : AtomicCommitMode) (s : DrmOutput) : List Bool :=
  let a := s.call w .drmModeAtomicAlloc
  let b := createModeBlob w a.2
  let p := populateModeset w b.2
  let q := populatePlanes w p.2
  let c := q.2.call w (commitRequest mode p.2)
  [a.1, b.1, p.1, q.1, c.1]

/-- A 4:3 frame buffer, narrower than the 1920x1080 mode. -/
def narrowFrame : DrmBuffer := { bufferId := 13, width := 1440, height := 1080 }

/-- The primary plane after `atomicReqModesetPopulate(req, true)` on a fresh
atomic output whose plane has `narrowFrame` staked as "next", with a
1920x1080 mode. -/
def narrowPlacement : Option DrmPlane :=
  (atomicReqModesetPopulate calmWorld (stakeBuffer (freshOutput true) narrowFrame) true).2.primaryPlane

/-- A world with a 32x32 cursor sprite at scale 1, tagged 5; every call
succeeds. -/
def cursorWorld : World :=
  { calmWorld with
    cursorImage := some { width := 32, height := 32, dprNum := 1, dprDen := 1, picture := 5 } }

/-- A fresh output after a cursor update and a successful show: slot 0 is
bound to the hardware and the active index has moved to slot 1. -/
def afterFirstShow : DrmOutput :=
  run (freshOutput true) [(cursorWorld, .updateCursor), (cursorWorld, .showCursor)]

/-- The same output after one more successful show, with no update between. -/
def afterSecondShow : DrmOutput :=
  run afterFirstShow [(cursorWorld, .showCursor)]

/-- A world whose output scale is 3/2 and whose cursor sprite is 43x43 pixels
at scale 1. -/
def fractionalWorld : World :=
  { calmWorld with
    scaleNum := 3, scaleDen := 2,
    cursorImage := some { width := 43, height := 43, dprNum := 1, dprDen := 1, picture := 5 } }

/-- A world whose cursor sprite is a single pixel at scale 3. -/
def tinySpriteWorld : World :=
  { calmWorld with
    cursorImage := some { width := 1, height := 1, dprNum := 3, dprDen := 1, picture := 5 } }

/-- Exact comparison of two logical lengths, `n1 / (num1 / den1)` at most
`n2 / (num2 / den2)`, for positive scale factors: by cross-multiplication. -/
def logicalLe (n1 num1 den1 n2 num2 den2 : Nat) : Bool :=
  decide (n1 * den1 * num2 ≤ n2 * den2 * num1)

/-- The rounding of the world keeps the order of the exact quotients: a
smaller logical length never rounds to a larger whole number.  Rounding to
nearest in double precision, adding one half and truncating are each
monotone. -/
def roundingMonotone (w : World) : Prop :=
  ∀ n1 m1 d1 n2 m2 d2 : Nat, 0 < m1 → 0 < m2 →
    logicalLe n1 m1 d1 n2 m2 d2 = true → w.qRoundDiv n1 m1 d1 ≤ w.qRoundDiv n2 m2 d2

/-- The state `t` is `s` except possibly for the log, the blob id and the
primary plane. -/
def Touched (s t : DrmOutput) : Prop :=
  ∃ l bl pp, t = { s with log := l, blobId := bl, primaryPlane := pp }

/-- The output `flipOutstanding` after its CRTC was taken away (`m_crtc` is
null) while the flip is outstanding. -/
def flipOutstandingNoCrtc : DrmOutput := { flipOutstanding with hasCrtc := false }

/-- The output `flipOutstanding` after a power-off request, deferred because
of the outstanding flip. -/
def offDeferred : DrmOutput := run flipOutstanding [(calmWorld, .updateDpms .Off)]

/-- A plane that holds a "next" buffer is queued in the flip list. -/
def Queued (s : DrmOutput) : Prop := s.planeNext ≠ none → s.nextPlanesFlipList ≠ []

/-- The state `t` comes from `s` by changes to the log, the blob id and the
primary plane that do not fill an empty "next" slot of the plane. -/
def Kept (s t : DrmOutput) : Prop := Touched s t ∧ (s.planeNext = none → t.planeNext = none)

/-- The world's `DrmCrtc::blank` leaves an occupied "next" slot of the CRTC
occupied.  The body of `DrmCrtc::blank` is in drm_object_crtc.cpp, not part
of the sources at hand; the spec's data model has a buffer leave the "next"
slot only on confirmed completion. -/
def blankKeepsNext (w : World) : Prop :=
  ∀ c : DrmCrtc, c.next ≠ none → (w.blank c).next ≠ none

/-- The step `op`, taken in state `s`, is a `present` on an atomic backend
that returned true after a real commit that included a modeset (the
`wasModeset` of `presentAtomically`). -/
def isModesetPresent (w : World) (s : DrmOutput) : Op → Bool
  | .present (some b) => s.atomicModeSetting && s.modesetRequested && (present w s (some b)).1
  | _ => false

/-- The mode, transform and position in effect at the end of the most recent
step of the run that was a successful present with a modeset; `acc` when the
run has no such step. -/
def lastModesetConfig (s : DrmOutput) :
    List (World × Op) → Option (Mode × Transform × (Int × Int)) →
      Option (Mode × Transform × (Int × Int))
  | [], acc => acc
  | (w, op) :: rest, acc =>
    lastModesetConfig (step w s op) rest
      (if isModesetPresent w s op then some (step w s op).config else acc)

/-- The last-working snapshot of `s` is invalid (`none`), or valid and holding
the given mode, transform and position. -/
def SnapshotIs (s : DrmOutput) : Option (Mode × Transform × (Int × Int)) → Prop
  | none => s.lastWorkingState.valid = false
  | some c => s.lastWorkingState.valid = true ∧ s.lastWorkingState.config = c

/-- An atomic output on which a modeset was presented and completed at 1080p;
then 1440p was selected, the output was powered off (the blank transaction
commits a modeset) and powered on again. -/
def offOnAfterModeChange : DrmOutput :=
  run (freshOutput true)
    [(calmWorld, .updateEnablement true), (calmWorld, .present (some frameA)),
     (calmWorld, .pageFlipped), (calmWorld, .updateMode 2560 1440 60),
     (calmWorld, .updateDpms .Off), (calmWorld, .updateDpms .On)]

/-- An atomic output that was powered off at 1080p before anything was
presented (the blank transaction commits a modeset); then 1440p was selected
and the output was powered on again. -/
def offOnBeforePresent : DrmOutput :=
  run (freshOutput true)
    [(calmWorld, .updateDpms .Off), (calmWorld, .updateMode 2560 1440 60),
     (calmWorld, .updateDpms .On)]

/-! ## Theorems -/

/-! ### Frame lemmas: what the helpers leave alone -/

theorem populatePlanes_shape (w : World) (s : DrmOutput) :
    ∃ l : List Event, (populatePlanes w s).2 = { s with log := s.log ++ l } := by
  unfold populatePlanes
  suffices h : ∀ (xs : List PlaneRef) (b : Bool) (l0 : List Event),
      ∃ l : List Event,
        (xs.foldl (fun acc _ =>
          let r := acc.2.call w (.atomicPopulate .plane)
          (acc.1 && r.1, r.2)) (b, { s with log := s.log ++ l0 })).2
          = { s with log := s.log ++ l } by
    simpa using h s.nextPlanesFlipList.reverse true []
  intro xs
  induction xs with
  | nil => intro b l0; exact ⟨l0, rfl⟩
  | cons x xs ih =>
    intro b l0
    simp only [List.foldl_cons, DrmOutput.call, DrmOutput.emit, List.append_assoc]
    exact ih _ _

theorem resetFlipListNext_shape (s : DrmOutput) :
    resetFlipListNext s = s ∨ resetFlipListNext s = s.onPlane (fun p => { p with next := none }) := by
  unfold resetFlipListNext
  suffices h : ∀ (xs : List PlaneRef) (t : DrmOutput),
      (t = s ∨ t = s.onPlane (fun p => { p with next := none })) →
      (xs.foldl (fun acc _ => acc.onPlane (fun p => { p with next := none })) t = s
        ∨ xs.foldl (fun acc _ => acc.onPlane (fun p => { p with next := none })) t
          = s.onPlane (fun p => { p with next := none })) from h _ s (Or.inl rfl)
  intro xs
  induction xs with
  | nil => intro t ht; simpa using ht
  | cons x xs ih =>
    intro t ht
    simp only [List.foldl_cons]
    apply ih
    right
    rcases ht with rfl | rfl
    · rfl
    · cases hp : s.primaryPlane <;> simp [DrmOutput.onPlane, hp]

theorem Touched.same (s : DrmOutput) : Touched s s := ⟨s.log, s.blobId, s.primaryPlane, rfl⟩

theorem Touched.chain {s t u : DrmOutput} (h1 : Touched s t) (h2 : Touched t u) : Touched s u := by
  obtain ⟨l, bl, pp, rfl⟩ := h1
  obtain ⟨l2, bl2, pp2, rfl⟩ := h2
  exact ⟨l2, bl2, pp2, rfl⟩

theorem touched_emit (s : DrmOutput) (e : Event) : Touched s (s.emit e) :=
  ⟨_, s.blobId, s.primaryPlane, rfl⟩

theorem touched_call (w : World) (s : DrmOutput) (e : Event) : Touched s (s.call w e).2 :=
  touched_emit s e

theorem touched_onPlane (s : DrmOutput) (f : DrmPlane → DrmPlane) : Touched s (s.onPlane f) :=
  ⟨s.log, s.blobId, _, rfl⟩

theorem touched_populatePlanes (w : World) (s : DrmOutput) : Touched s (populatePlanes w s).2 := by
  obtain ⟨l, h⟩ := populatePlanes_shape w s
  exact ⟨_, s.blobId, s.primaryPlane, h⟩

theorem touched_modesetPopulate (w : World) (s : DrmOutput) (enable : Bool) :
    Touched s (atomicReqModesetPopulate w s enable).2 := by
  unfold atomicReqModesetPopulate
  cases enable
  · exact (touched_onPlane s _).chain ((touched_call w _ _).chain (touched_call w _ _))
  · exact (touched_onPlane s _).chain ((touched_call w _ _).chain (touched_call w _ _))

theorem touched_dpmsFinishOff (s : DrmOutput) : Touched s (dpmsFinishOff s) := by
  unfold dpmsFinishOff
  split
  · exact (touched_emit s _).chain ((touched_emit _ _).chain (touched_emit _ _))
  · exact (touched_emit s _).chain (touched_emit _ _)

theorem errorHandler_shape (s : DrmOutput) (req : Bool) :
    ∃ l pp, errorHandler s req
      = { s with log := l, primaryPlane := pp, dpmsModePending := s.dpmsMode,
                 nextPlanesFlipList := [] } := by
  have h1 : ∃ l, (if req then s.emit .drmModeAtomicFree else s) = { s with log := l } := by
    cases req
    · exact ⟨s.log, rfl⟩
    · exact ⟨_, rfl⟩
  obtain ⟨l1, h1⟩ := h1
  unfold errorHandler
  simp only [h1]
  have h2 : ∃ l2, (if ({ s with log := l1 } : DrmOutput).dpmsMode ≠ ({ s with log := l1 } : DrmOutput).dpmsModePending then
      (if ({ ({ s with log := l1 } : DrmOutput) with dpmsModePending := s.dpmsMode } : DrmOutput).dpmsMode ≠ .On
        then dpmsFinishOff { ({ s with log := l1 } : DrmOutput) with dpmsModePending := s.dpmsMode }
        else { ({ s with log := l1 } : DrmOutput) with dpmsModePending := s.dpmsMode })
      else ({ s with log := l1 } : DrmOutput)) = { s with log := l2, dpmsModePending := s.dpmsMode } := by
    by_cases hd : s.dpmsMode = s.dpmsModePending
    · refine ⟨l1, ?_⟩
      simp only [hd, ne_eq, not_true_eq_false, if_false]
    · simp only [ne_eq, hd, not_false_eq_true, if_true]
      by_cases ho : s.dpmsMode = .On
      · exact ⟨l1, by simp [ho]⟩
      · simp only [ho, not_false_eq_true, if_true]
        unfold dpmsFinishOff
        split <;> exact ⟨_, rfl⟩
  obtain ⟨l2, h2⟩ := h2
  simp only [] at h2
  rw [h2]
  rcases resetFlipListNext_shape { s with log := l2, dpmsModePending := s.dpmsMode } with h | h
  · rw [h]; exact ⟨l2, s.primaryPlane, rfl⟩
  · rw [h]; exact ⟨l2, _, rfl⟩

theorem errorHandler_of_touched {s t : DrmOutput} (req : Bool) (h : Touched s t) :
    ∃ l bl pp, errorHandler t req
      = { s with log := l, blobId := bl, primaryPlane := pp, dpmsModePending := s.dpmsMode,
                 nextPlanesFlipList := [] } := by
  obtain ⟨l, bl, pp, rfl⟩ := h
  obtain ⟨l2, pp2, h2⟩ := errorHandler_shape { s with log := l, blobId := bl, primaryPlane := pp } req
  exact ⟨l2, bl, pp2, h2⟩

theorem touched_createModeBlob (w : World) (s : DrmOutput) : Touched s (createModeBlob w s).2 := by
  unfold createModeBlob
  split
  · split
    · rename_i s1 h
      have := touched_call w s (.drmModeCreatePropertyBlob s.mode)
      rw [h] at this
      exact this.chain ⟨_, w.blobId, _, rfl⟩
    · rename_i s1 h
      have := touched_call w s (.drmModeCreatePropertyBlob s.mode)
      rw [h] at this
      exact this
  · exact Touched.same s

theorem touched_populateModeset (w : World) (s : DrmOutput) : Touched s (populateModeset w s).2 := by
  unfold populateModeset
  split
  · exact touched_modesetPopulate w s _
  · exact Touched.same s

/-- The outcome of `doAtomicCommit`, field by field: on failure the pending
power state is reset to the confirmed one and the flip list is emptied; on
success a real commit with a modeset clears the modeset request and confirms
the pending power state.  Everything else, apart from the log, the blob id
and the primary plane, is as before. -/
theorem doAtomicCommit_shape (w : World) (m : AtomicCommitMode) (s : DrmOutput) :
    ((doAtomicCommit w m s).1 = false ∧
      ∃ l bl pp, (doAtomicCommit w m s).2
        = { s with log := l, blobId := bl, primaryPlane := pp,
                   dpmsModePending := s.dpmsMode, nextPlanesFlipList := [] })
    ∨ ((doAtomicCommit w m s).1 = true ∧
      ∃ l bl pp, (doAtomicCommit w m s).2
        = { s with log := l, blobId := bl, primaryPlane := pp,
                   modesetRequested := (if m = .Real then false else s.modesetRequested),
                   dpmsMode := (if m = .Real ∧ s.modesetRequested = true
                                then s.dpmsModePending else s.dpmsMode) }) := by
  unfold doAtomicCommit
  split
  · rename_i a ha
    have ta : Touched s a := by have := touched_call w s .drmModeAtomicAlloc; rwa [ha] at this
    exact Or.inl ⟨rfl, errorHandler_of_touched _ ta⟩
  rename_i a ha
  have ta : Touched s a := by have := touched_call w s .drmModeAtomicAlloc; rwa [ha] at this
  split
  · rename_i b hb
    have tb : Touched a b := by have := touched_createModeBlob w a; rwa [hb] at this
    exact Or.inl ⟨rfl, errorHandler_of_touched _ (ta.chain tb)⟩
  rename_i b hb
  have tb : Touched s b := by have := touched_createModeBlob w a; rw [hb] at this; exact ta.chain this
  split
  · rename_i p hp
    have tp : Touched b p := by have := touched_populateModeset w b; rwa [hp] at this
    exact Or.inl ⟨rfl, errorHandler_of_touched _ (tb.chain tp)⟩
  rename_i p hp
  have tp : Touched s p := by have := touched_populateModeset w b; rw [hp] at this; exact tb.chain this
  split
  · rename_i q hq
    have tq : Touched p q := by have := touched_populatePlanes w p; rwa [hq] at this
    exact Or.inl ⟨rfl, errorHandler_of_touched _ (tp.chain tq)⟩
  rename_i q hq
  have tq : Touched s q := by have := touched_populatePlanes w p; rw [hq] at this; exact tp.chain this
  split
  · rename_i c hc
    have tc : Touched q c := by have := touched_call w q (commitRequest m p); rwa [hc] at this
    exact Or.inl ⟨rfl, errorHandler_of_touched _ (tq.chain tc)⟩
  rename_i c hc
  have tc : Touched s c := by
    have := touched_call w q (commitRequest m p); rw [hc] at this; exact tq.chain this
  right
  refine ⟨rfl, ?_⟩
  obtain ⟨l, bl, pp, rfl⟩ := tc
  obtain ⟨l2, bl2, pp2, rfl⟩ := tp
  cases m <;> cases hm : s.modesetRequested <;> simp [DrmOutput.emit, hm]

theorem showCursor_shape (w : World) (s : DrmOutput) :
    ∃ idx hn l, (showCursor w s).2 = { s with cursorIndex := idx, hasNewCursor := hn, log := l } := by
  unfold showCursor
  split
  · exact ⟨_, _, _, rfl⟩
  · split
    · exact ⟨_, _, _, rfl⟩
    · simp only [showCursorBuffer, DrmOutput.call, DrmOutput.emit]
      split
      · exact ⟨_, _, _, rfl⟩
      · split <;> exact ⟨_, _, _, rfl⟩

theorem updateCursor_shape (w : World) (s : DrmOutput) :
    ∃ c0 c1 hn, (updateCursor w s).2 = { s with cursor0 := c0, cursor1 := c1, hasNewCursor := hn } := by
  unfold updateCursor
  split
  · exact ⟨_, _, _, rfl⟩
  · split
    · exact ⟨_, _, _, rfl⟩
    · split
      · exact ⟨_, _, _, rfl⟩
      · simp only [DrmOutput.setCursorAt]
        split <;> split <;> exact ⟨_, _, _, rfl⟩

/-- Showing the cursor after updating it touches only the cursor members
and the log. -/
theorem cursorRefresh_shape (w : World) (s : DrmOutput) :
    ∃ c0 c1 idx hn l, (showCursor w (updateCursor w s).2).2
      = { s with cursor0 := c0, cursor1 := c1, cursorIndex := idx, hasNewCursor := hn, log := l } := by
  obtain ⟨c0, c1, hn, h1⟩ := updateCursor_shape w s
  obtain ⟨idx, hn2, l, h2⟩ := showCursor_shape w (updateCursor w s).2
  rw [h2, h1]
  exact ⟨_, _, _, _, _, rfl⟩

/-- What `rollback` does to the mode, transform and position: with a valid
snapshot they become the snapshot's; without one nothing changes at all. -/
theorem rollback_config (w : World) (s : DrmOutput) :
    (rollback w s).lastWorkingState = s.lastWorkingState
    ∧ (s.lastWorkingState.valid = true → (rollback w s).config = s.lastWorkingState.config)
    ∧ (s.lastWorkingState.valid = false → rollback w s = s) := by
  unfold rollback
  cases hv : s.lastWorkingState.valid with
  | false => simp
  | true =>
    simp only [if_true, true_implies]
    refine ⟨?_, ?_, by simp⟩
    · split
      · rename_i hc
        generalize hx : ({ (DrmOutput.onPlane _ _) with modesetRequested := true } : DrmOutput) = x
        obtain ⟨c0, c1, idx, hn, l, h⟩ := cursorRefresh_shape w x
        rw [h, ← hx]
        rfl
      · rfl
    · split
      · generalize hx : ({ (DrmOutput.onPlane _ _) with modesetRequested := true } : DrmOutput) = x
        obtain ⟨c0, c1, idx, hn, l, h⟩ := cursorRefresh_shape w x
        rw [h, ← hx]
        rfl
      · rfl

/-- A weaker reading of `doAtomicCommit_shape`: the members a commit may
change, whatever its outcome. -/
theorem doAtomicCommit_frame (w : World) (m : AtomicCommitMode) (s : DrmOutput) :
    ∃ l bl pp pend lst mr dm, (doAtomicCommit w m s).2
      = { s with log := l, blobId := bl, primaryPlane := pp, dpmsModePending := pend,
                 nextPlanesFlipList := lst, modesetRequested := mr, dpmsMode := dm } := by
  rcases doAtomicCommit_shape w m s with ⟨_, l, bl, pp, he⟩ | ⟨_, l, bl, pp, he⟩
  · rw [he]; exact ⟨_, _, _, _, _, _, _, rfl⟩
  · rw [he]; exact ⟨_, _, _, _, _, _, _, rfl⟩

theorem dpmsAtomicOff_frame (w : World) (s : DrmOutput) :
    ∃ l bl pp pend lst mr dm, (dpmsAtomicOff w s).2
      = { s with log := l, blobId := bl, primaryPlane := pp, dpmsModePending := pend,
                 nextPlanesFlipList := lst, modesetRequested := mr, dpmsMode := dm,
                 atomicOffPending := false } := by
  unfold dpmsAtomicOff
  simp only []
  generalize hs3 : ({ ({ s with atomicOffPending := false } : DrmOutput).onPlane
      (fun p => { p with next := none }) with
      nextPlanesFlipList := (({ s with atomicOffPending := false } : DrmOutput).onPlane
        (fun p => { p with next := none })).nextPlanesFlipList ++ [PlaneRef.primary] } : DrmOutput)
      = s3
  have e3 : ∃ pp lst,
      s3 = { s with atomicOffPending := false, primaryPlane := pp, nextPlanesFlipList := lst } :=
    ⟨_, _, hs3.symm⟩
  obtain ⟨pp0, lst0, e3⟩ := e3
  obtain ⟨l, bl, pp, pend, lst, mr, dm, h1⟩ := doAtomicCommit_frame w .Test s3
  obtain ⟨l2, bl2, pp2, pend2, lst2, mr2, dm2, h2⟩ :=
    doAtomicCommit_frame w .Real (doAtomicCommit w .Test s3).2
  split
  · rw [h1, e3]; exact ⟨_, _, _, _, _, _, _, rfl⟩
  · split
    · rw [h2, h1, e3]; exact ⟨_, _, _, _, _, _, _, rfl⟩
    · obtain ⟨l3, bl3, pp3, h3⟩ := touched_dpmsFinishOff
        { (doAtomicCommit w .Real (doAtomicCommit w .Test s3).2).2 with nextPlanesFlipList := [] }
      rw [h3, h2, h1, e3]; exact ⟨_, _, _, _, _, _, _, rfl⟩

theorem flipPlanes_frame (s : DrmOutput) :
    ∃ pp, flipPlanes s = { s with primaryPlane := pp } := by
  unfold flipPlanes
  suffices h : ∀ (xs : List PlaneRef) (t : DrmOutput), (∃ pp, t = { s with primaryPlane := pp }) →
      ∃ pp, xs.foldl (fun acc _ => acc.onPlane DrmPlane.flipBuffer) t
        = { s with primaryPlane := pp } from h _ s ⟨_, rfl⟩
  intro xs
  induction xs with
  | nil => intro t ht; simpa using ht
  | cons x xs ih =>
    intro t ht
    simp only [List.foldl_cons]
    apply ih
    obtain ⟨pp, rfl⟩ := ht
    exact ⟨_, rfl⟩

theorem dpmsFinishOff_log (s : DrmOutput) : ∃ l, dpmsFinishOff s = { s with log := l } := by
  unfold dpmsFinishOff
  split <;> exact ⟨_, rfl⟩

/-! ### The last-working snapshot is written by a successful modeset present only -/

theorem dpmsFinishOn_lws (w : World) (s : DrmOutput) :
    (dpmsFinishOn w s).lastWorkingState = s.lastWorkingState := by
  unfold dpmsFinishOn
  split <;> simp [DrmOutput.emit]

theorem dpmsLegacyApply_lws (w : World) (s : DrmOutput) :
    (dpmsLegacyApply w s).2.lastWorkingState = s.lastWorkingState := by
  unfold dpmsLegacyApply
  simp only [DrmOutput.call]
  split
  · rfl
  · split
    · simp [dpmsFinishOn_lws, DrmOutput.emit]
    · obtain ⟨l, h⟩ := dpmsFinishOff_log (s.emit (.drmModeConnectorSetProperty s.dpmsModePending))
      rw [h]; rfl

theorem dpmsAtomicOff_lws (w : World) (s : DrmOutput) :
    (dpmsAtomicOff w s).2.lastWorkingState = s.lastWorkingState := by
  obtain ⟨l, bl, pp, pend, lst, mr, dm, h⟩ := dpmsAtomicOff_frame w s
  rw [h]

theorem updateDpms_lws (w : World) (s : DrmOutput) (mode : DpmsMode) :
    (updateDpms w s mode).lastWorkingState = s.lastWorkingState := by
  unfold updateDpms
  simp only []
  split_ifs <;>
    simp [dpmsFinishOn_lws, dpmsAtomicOff_lws, dpmsLegacyApply_lws, DrmOutput.emit]

theorem updateEnablement_lws (w : World) (s : DrmOutput) (enable : Bool) :
    (updateEnablement w s enable).lastWorkingState = s.lastWorkingState := by
  unfold updateEnablement atomicEnable atomicDisable
  simp only []
  split_ifs <;>
    simp [dpmsFinishOn_lws, dpmsAtomicOff_lws, dpmsLegacyApply_lws, DrmOutput.emit]

theorem teardown_lws (w : World) (s : DrmOutput) :
    (teardown w s).lastWorkingState = s.lastWorkingState := by
  unfold teardown
  simp only [hideCursor, DrmOutput.call, DrmOutput.emit, DrmOutput.onPlane]
  split_ifs <;> simp

theorem updateTransform_lws (w : World) (s : DrmOutput) (t : Transform) :
    (updateTransform w s t).lastWorkingState = s.lastWorkingState := by
  unfold updateTransform
  simp only []
  split
  · generalize hx : ({ (DrmOutput.onPlane _ _) with modesetRequested := true } : DrmOutput) = x
    obtain ⟨c0, c1, idx, hn, l, h⟩ := cursorRefresh_shape w x
    rw [h, ← hx]; rfl
  · rfl

theorem updateModeIndex_lws (w : World) (s : DrmOutput) (i : Nat) :
    (updateModeIndex w s i).lastWorkingState = s.lastWorkingState := by
  unfold updateModeIndex
  simp only [setWaylandMode, DrmOutput.emit]
  split
  · rfl
  · split_ifs <;> simp

theorem updateMode_lws (w : World) (s : DrmOutput) (a b c : Nat) :
    (updateMode w s a b c).lastWorkingState = s.lastWorkingState := by
  unfold updateMode
  simp only []
  split_ifs
  · rfl
  · split
    · simp [updateModeIndex_lws, DrmOutput.emit]
    · rfl

theorem flipPlanes_lws (s : DrmOutput) :
    (flipPlanes s).lastWorkingState = s.lastWorkingState := by
  obtain ⟨pp, h⟩ := flipPlanes_frame s
  rw [h]

theorem pageFlipped_lws (w : World) (s : DrmOutput) :
    (pageFlipped w s).lastWorkingState = s.lastWorkingState := by
  unfold pageFlipped
  simp only []
  split_ifs
  all_goals first
    | simp [dpmsAtomicOff_lws, flipPlanes_lws, DrmOutput.emit, DrmCrtc.flipBuffer]; done
    | (split <;> simp [dpmsAtomicOff_lws, flipPlanes_lws, DrmOutput.emit, DrmCrtc.flipBuffer])

theorem presentLegacy_lws (w : World) (s : DrmOutput) (b : DrmBuffer) :
    (presentLegacy w s b).2.lastWorkingState = s.lastWorkingState := by
  unfold presentLegacy
  simp only [setModeLegacy, DrmOutput.call, DrmOutput.emit]
  split_ifs <;> simp

/-! ### The deleted mark is never cleared -/

theorem dpmsFinishOn_del (w : World) (s : DrmOutput) :
    (dpmsFinishOn w s).deleted = s.deleted := by
  unfold dpmsFinishOn
  split <;> simp [DrmOutput.emit]

theorem dpmsLegacyApply_del (w : World) (s : DrmOutput) :
    (dpmsLegacyApply w s).2.deleted = s.deleted := by
  unfold dpmsLegacyApply
  simp only [DrmOutput.call]
  split
  · rfl
  · split
    · simp [dpmsFinishOn_del, DrmOutput.emit]
    · obtain ⟨l, h⟩ := dpmsFinishOff_log (s.emit (.drmModeConnectorSetProperty s.dpmsModePending))
      rw [h]; rfl

theorem dpmsAtomicOff_del (w : World) (s : DrmOutput) :
    (dpmsAtomicOff w s).2.deleted = s.deleted := by
  obtain ⟨l, bl, pp, pend, lst, mr, dm, h⟩ := dpmsAtomicOff_frame w s
  rw [h]

theorem updateDpms_del (w : World) (s : DrmOutput) (mode : DpmsMode) :
    (updateDpms w s mode).deleted = s.deleted := by
  unfold updateDpms
  simp only []
  split_ifs <;>
    simp [dpmsFinishOn_del, dpmsAtomicOff_del, dpmsLegacyApply_del, DrmOutput.emit]

theorem updateEnablement_del (w : World) (s : DrmOutput) (enable : Bool) :
    (updateEnablement w s enable).deleted = s.deleted := by
  unfold updateEnablement atomicEnable atomicDisable
  simp only []
  split_ifs <;>
    simp [dpmsFinishOn_del, dpmsAtomicOff_del, dpmsLegacyApply_del, DrmOutput.emit]

theorem updateTransform_del (w : World) (s : DrmOutput) (t : Transform) :
    (updateTransform w s t).deleted = s.deleted := by
  unfold updateTransform
  simp only []
  split
  · generalize hx : ({ (DrmOutput.onPlane _ _) with modesetRequested := true } : DrmOutput) = x
    obtain ⟨c0, c1, idx, hn, l, h⟩ := cursorRefresh_shape w x
    rw [h, ← hx]; rfl
  · rfl

theorem updateModeIndex_del (w : World) (s : DrmOutput) (i : Nat) :
    (updateModeIndex w s i).deleted = s.deleted := by
  unfold updateModeIndex
  simp only [setWaylandMode, DrmOutput.emit]
  split
  · rfl
  · split_ifs <;> simp

theorem updateMode_del (w : World) (s : DrmOutput) (a b c : Nat) :
    (updateMode w s a b c).deleted = s.deleted := by
  unfold updateMode
  simp only []
  split_ifs
  · rfl
  · split
    · simp [updateModeIndex_del, DrmOutput.emit]
    · rfl

theorem flipPlanes_del (s : DrmOutput) :
    (flipPlanes s).deleted = s.deleted := by
  obtain ⟨pp, h⟩ := flipPlanes_frame s
  rw [h]

theorem pageFlipped_del (w : World) (s : DrmOutput) :
    (pageFlipped w s).deleted = s.deleted := by
  unfold pageFlipped
  simp only []
  split_ifs
  all_goals first
    | simp [dpmsAtomicOff_del, flipPlanes_del, DrmOutput.emit, DrmCrtc.flipBuffer]; done
    | (split <;> simp [dpmsAtomicOff_del, flipPlanes_del, DrmOutput.emit, DrmCrtc.flipBuffer])

theorem presentLegacy_del (w : World) (s : DrmOutput) (b : DrmBuffer) :
    (presentLegacy w s b).2.deleted = s.deleted := by
  unfold presentLegacy
  simp only [setModeLegacy, DrmOutput.call, DrmOutput.emit]
  split_ifs <;> simp

theorem rollback_del (w : World) (s : DrmOutput) : (rollback w s).deleted = s.deleted := by
  unfold rollback
  split
  · simp only [setWaylandMode, DrmOutput.emit]
    split
    · generalize hx : ({ (DrmOutput.onPlane _ _) with modesetRequested := true } : DrmOutput) = x
      obtain ⟨c0, c1, idx, hn, l, h⟩ := cursorRefresh_shape w x
      rw [h, ← hx]; rfl
    · rfl
  · rfl

theorem doAtomicCommit_del (w : World) (m : AtomicCommitMode) (s : DrmOutput) :
    (doAtomicCommit w m s).2.deleted = s.deleted := by
  obtain ⟨l, bl, pp, pend, lst, mr, dm, h⟩ := doAtomicCommit_frame w m s
  rw [h]

theorem presentAtomically_del (w : World) (s : DrmOutput) (b : DrmBuffer) :
    (presentAtomically w s b).2.deleted = s.deleted := by
  have hT := doAtomicCommit_del w .Test (stakeBuffer s b)
  unfold presentAtomically
  split_ifs
  · rfl
  · rfl
  · rfl
  · split
    · rename_i t ht
      rw [ht] at hT
      show (rollback w t).deleted = _
      rw [rollback_del]; exact hT
    · rename_i t ht
      rw [ht] at hT
      have hR := doAtomicCommit_del w .Real t
      split
      · rename_i r hr
        rw [hr] at hR
        exact hR.trans hT
      · rename_i r hr
        rw [hr] at hR
        simp only []
        split
        · simp only [storeWorkingState, DrmOutput.emit]
          exact hR.trans hT
        · exact hR.trans hT

theorem step_keeps_deleted (w : World) (s : DrmOutput) (op : Op) (hd : s.deleted = true) :
    (step w s op).deleted = true := by
  cases op with
  | teardown => simp [step, teardown, hd]
  | updateEnablement e => rw [← hd]; exact updateEnablement_del w s e
  | updateDpms m => rw [← hd]; exact updateDpms_del w s m
  | updateTransform t => rw [← hd]; exact updateTransform_del w s t
  | updateMode a b c => rw [← hd]; exact updateMode_del w s a b c
  | updateModeIndex i => rw [← hd]; exact updateModeIndex_del w s i
  | pageFlipped => rw [← hd]; exact pageFlipped_del w s
  | showCursor =>
    obtain ⟨idx, hn, l, h⟩ := showCursor_shape w s
    show (showCursor w s).2.deleted = _; rw [h]; exact hd
  | updateCursor =>
    obtain ⟨c0, c1, hn, h⟩ := updateCursor_shape w s
    show (updateCursor w s).2.deleted = _; rw [h]; exact hd
  | hideCursor => exact hd
  | present buf =>
    cases buf with
    | none => exact hd
    | some b0 =>
      show (present w s (some b0)).2.deleted = true
      unfold present
      simp only []
      split_ifs
      · exact hd
      · exact hd
      · rw [presentAtomically_del]; exact hd
      · rw [presentLegacy_del]; exact hd

theorem pageFlipped_clears_pending (w : World) (s : DrmOutput) :
    (pageFlipped w s).pageFlipPending = false := by
  have hoff : ∀ t : DrmOutput, (dpmsAtomicOff w t).2.pageFlipPending = t.pageFlipPending := by
    intro t
    obtain ⟨l, bl, pp, pend, lst, mr, dm, h⟩ := dpmsAtomicOff_frame w t
    rw [h]
  have hflip : ∀ t : DrmOutput, (flipPlanes t).pageFlipPending = t.pageFlipPending := by
    intro t
    obtain ⟨pp, h⟩ := flipPlanes_frame t
    rw [h]
  unfold pageFlipped
  simp only []
  split_ifs
  all_goals first
    | simp [hoff, hflip, DrmOutput.emit, DrmCrtc.flipBuffer]; done
    | (split <;> simp [hoff, hflip, DrmOutput.emit, DrmCrtc.flipBuffer])

theorem stakeBuffer_frame (s : DrmOutput) (b : DrmBuffer) :
    ∃ pp lst, stakeBuffer s b = { s with primaryPlane := pp, nextPlanesFlipList := lst } :=
  ⟨_, _, rfl⟩

/-- The state in which `presentAtomically` finds the output after its test
commit: the members a commit and the staking of the buffer never change. -/
theorem testCommit_keeps (w : World) (s : DrmOutput) (b : DrmBuffer) :
    (doAtomicCommit w .Test (stakeBuffer s b)).2.lastWorkingState = s.lastWorkingState
    ∧ (doAtomicCommit w .Test (stakeBuffer s b)).2.config = s.config
    ∧ ((doAtomicCommit w .Test (stakeBuffer s b)).1 = true →
        (doAtomicCommit w .Test (stakeBuffer s b)).2.modesetRequested = s.modesetRequested) := by
  obtain ⟨pp0, lst0, h0⟩ := stakeBuffer_frame s b
  rcases doAtomicCommit_shape w .Test (stakeBuffer s b) with ⟨hf, l, bl, pp, he⟩ | ⟨ht, l, bl, pp, he⟩
  · refine ⟨?_, ?_, fun h => by rw [hf] at h; exact absurd h (by decide)⟩
    · rw [he, h0]
    · rw [he, h0]; rfl
  · refine ⟨?_, ?_, fun _ => ?_⟩
    · rw [he, h0]
    · rw [he, h0]; rfl
    · rw [he, h0]; simp

theorem realCommit_keeps (w : World) (s : DrmOutput) :
    (doAtomicCommit w .Real s).2.lastWorkingState = s.lastWorkingState
    ∧ (doAtomicCommit w .Real s).2.config = s.config := by
  obtain ⟨l, bl, pp, pend, lst, mr, dm, h⟩ := doAtomicCommit_frame w .Real s
  rw [h]
  exact ⟨rfl, rfl⟩

theorem storeWorkingState_config (s : DrmOutput) :
    (storeWorkingState s).lastWorkingState.valid = true
    ∧ (storeWorkingState s).lastWorkingState.config = s.config
    ∧ (storeWorkingState s).config = s.config := by
  unfold storeWorkingState
  cases s.primaryPlane <;>
    simp [DrmOutput.emit, LastWorkingState.config, DrmOutput.config]

theorem presentAtomically_lws (w : World) (s : DrmOutput) (b : DrmBuffer) :
    (presentAtomically w s b).2.lastWorkingState = s.lastWorkingState
    ∨ ((presentAtomically w s b).1 = true ∧ s.modesetRequested = true
        ∧ (presentAtomically w s b).2.lastWorkingState.valid = true
        ∧ (presentAtomically w s b).2.lastWorkingState.config
            = (presentAtomically w s b).2.config) := by
  have hT := testCommit_keeps w s b
  unfold presentAtomically
  split_ifs
  · exact Or.inl rfl
  · exact Or.inl rfl
  · exact Or.inl rfl
  · split
    · rename_i t ht
      rw [ht] at hT
      left
      show (rollback w t).lastWorkingState = _
      rw [(rollback_config w t).1]
      exact hT.1
    · rename_i t ht
      rw [ht] at hT
      have hR := realCommit_keeps w t
      split
      · rename_i r hr
        rw [hr] at hR
        left
        exact hR.1.trans hT.1
      · rename_i r hr
        rw [hr] at hR
        have hm := hT.2.2 rfl
        simp only at hm
        cases hreq : s.modesetRequested with
        | false =>
          left
          simp only [hm, hreq, Bool.false_eq_true, if_false]
          exact hR.1.trans hT.1
        | true =>
          right
          simp only [hm, hreq, if_true]
          obtain ⟨h1, h2, h3⟩ := storeWorkingState_config r
          exact ⟨trivial, trivial, h1, h2.trans h3.symm⟩

/-! ### Claims -/

/-- C10 (as the claim words it, refuted): fourteen integer members are
compared, not thirteen.  With 1080p active, whichever member `k` is left out
of a list of thirteen, the descriptor obtained from the active mode by setting
member `k` to 1 agrees with the active mode on the other thirteen members and
on the name, and is not the current mode. -/
theorem isCurrentMode_thirteen_fields_not_enough :
    (List.finRange 14).all (fun k =>
      (List.finRange 14).all (fun j =>
        j == k || (mode1080.setNumericField k 1).numericField j == mode1080.numericField j)
      && (mode1080.setNumericField k 1).name == (freshOutput true).mode.name
      && !isCurrentMode (freshOutput true) (mode1080.setNumericField k 1)) = true := by
  decide

/-- C10 (amended): `isCurrentMode m` is true exactly when all fourteen integer
members of `m` (clock, the five horizontal and five vertical timings,
vrefresh, flags and type) equal those of the active mode and the two name
strings are equal; and replacing any one integer member of the active mode
by a different value, or its name by a different string, gives a descriptor
that is not the current mode. -/
theorem isCurrentMode_iff_all_fields (s : DrmOutput) (m : Mode) :
    (isCurrentMode s m = true ↔
      ((∀ k : Fin 14, m.numericField k = s.mode.numericField k)
        ∧ cstr m.name = cstr s.mode.name))
    ∧ (∀ (k : Fin 14) (v : Nat), v ≠ s.mode.numericField k →
        isCurrentMode s (s.mode.setNumericField k v) = false)
    ∧ (∀ name : List Nat, cstr name ≠ cstr s.mode.name →
        isCurrentMode s { s.mode with name := name } = false) := by
  have key : ∀ m : Mode, isCurrentMode s m = true ↔
      ((∀ k : Fin 14, m.numericField k = s.mode.numericField k)
        ∧ cstr m.name = cstr s.mode.name) := by
    intro m
    simp only [isCurrentMode, qstrcmpEq, Bool.and_eq_true, beq_iff_eq, Fin.forall_fin_succ,
      Mode.numericField]
    simp only [Fin.forall_fin_zero_pi, and_true, and_assoc]
    constructor <;> intro h <;> simpa [Mode.numericField] using h
  refine ⟨key m, ?_, ?_⟩
  · intro k v hv
    cases hc : isCurrentMode s (s.mode.setNumericField k v) with
    | false => rfl
    | true =>
      have h := ((key _).1 hc).1 k
      exfalso
      apply hv
      rw [← h]
      fin_cases k <;> rfl
  · intro name hn
    cases hc : isCurrentMode s { s.mode with name := name } with
    | false => rfl
    | true => exact absurd ((key _).1 hc).2 hn

theorem isCurrentMode_iff_all_fields_witness :
    isCurrentMode (freshOutput true) (mode1080.setNumericField 0 1) = false :=
  (isCurrentMode_iff_all_fields (freshOutput true) mode1080).2.1 0 1 (by decide)

/-- C6: `present` returns false and leaves the whole output, its log of
outgoing calls included, exactly as it was when the buffer is null, when its
id is 0, or when the pending power state is not On; in every other case it is
`presentAtomically` on an atomic backend and `presentLegacy` otherwise. -/
theorem present_gate (w : World) (s : DrmOutput) (buffer : Option DrmBuffer) :
    ((buffer = none ∨ (∃ b, buffer = some b ∧ b.bufferId = 0) ∨ s.dpmsModePending ≠ .On) →
        present w s buffer = (false, s))
    ∧ (∀ b, buffer = some b → b.bufferId ≠ 0 → s.dpmsModePending = .On →
        present w s buffer
          = if s.atomicModeSetting then presentAtomically w s b else presentLegacy w s b) := by
  constructor
  · rintro (h | ⟨b, h, hb⟩ | h)
    · subst h; rfl
    · subst h; simp [present, hb]
    · cases buffer with
      | none => rfl
      | some b => simp [present, h]
  · intro b hb hid hon
    subst hb
    simp [present, hid, hon]

theorem present_gate_witness :
    present calmWorld (freshOutput true) (some { frameA with bufferId := 0 })
      = (false, freshOutput true) :=
  (present_gate calmWorld (freshOutput true) (some { frameA with bufferId := 0 })).1
    (Or.inr (Or.inl ⟨_, rfl, rfl⟩))

/-- C8: a failed power-state change leaves the power state at its confirmed
value.  Legacy: when `drmModeConnectorSetProperty` fails, `dpmsLegacyApply`
returns false, the pending state equals the confirmed state and the confirmed
state is as before.  Atomic: whenever `doAtomicCommit` (test or real) returns
false, and whenever `dpmsAtomicOff` returns false, the same holds. -/
theorem failed_dpms_keeps_confirmed (w : World) (s : DrmOutput) (m : AtomicCommitMode) :
    (w.kernel s.log (.drmModeConnectorSetProperty s.dpmsModePending) = false →
        (dpmsLegacyApply w s).1 = false
          ∧ (dpmsLegacyApply w s).2.dpmsModePending = (dpmsLegacyApply w s).2.dpmsMode
          ∧ (dpmsLegacyApply w s).2.dpmsMode = s.dpmsMode)
    ∧ ((doAtomicCommit w m s).1 = false →
        (doAtomicCommit w m s).2.dpmsModePending = (doAtomicCommit w m s).2.dpmsMode
          ∧ (doAtomicCommit w m s).2.dpmsMode = s.dpmsMode)
    ∧ ((dpmsAtomicOff w s).1 = false →
        (dpmsAtomicOff w s).2.dpmsModePending = (dpmsAtomicOff w s).2.dpmsMode
          ∧ (dpmsAtomicOff w s).2.dpmsMode = s.dpmsMode) := by
  refine ⟨?_, ?_, ?_⟩
  · intro h
    simp [dpmsLegacyApply, DrmOutput.call, DrmOutput.emit, h]
  · intro h
    rcases doAtomicCommit_shape w m s with ⟨_, l, bl, pp, he⟩ | ⟨ht, _⟩
    · rw [he]; exact ⟨rfl, rfl⟩
    · rw [h] at ht; exact absurd ht (by decide)
  · intro h
    unfold dpmsAtomicOff at h ⊢
    simp only [] at h ⊢
    generalize hs3 : ({ ({ s with atomicOffPending := false } : DrmOutput).onPlane
        (fun p => { p with next := none }) with
        nextPlanesFlipList := (({ s with atomicOffPending := false } : DrmOutput).onPlane
          (fun p => { p with next := none })).nextPlanesFlipList ++ [PlaneRef.primary] } : DrmOutput)
        = s3 at h ⊢
    have e3 : s3.dpmsMode = s.dpmsMode := by rw [← hs3]; rfl
    rcases doAtomicCommit_shape w .Test s3 with ⟨hf, l, bl, pp, he⟩ | ⟨ht, l, bl, pp, he⟩
    · simp only [hf, Bool.not_false, if_true]
      rw [he]; exact ⟨rfl, e3⟩
    · simp only [ht, Bool.not_true, Bool.false_eq_true, if_false] at h ⊢
      have e4 : (doAtomicCommit w .Test s3).2.dpmsMode = s.dpmsMode := by
        rw [he]; simpa using e3
      rcases doAtomicCommit_shape w .Real (doAtomicCommit w .Test s3).2 with
        ⟨hf2, l2, bl2, pp2, he2⟩ | ⟨ht2, _⟩
      · simp only [hf2, Bool.not_false, if_true]
        rw [he2]; exact ⟨rfl, e4⟩
      · simp [ht2] at h

theorem failed_dpms_keeps_confirmed_witness :
    (doAtomicCommit { calmWorld with kernel := fun _ _ => false } .Test
        { freshOutput true with dpmsModePending := .Off }).2.dpmsModePending
      = (doAtomicCommit { calmWorld with kernel := fun _ _ => false } .Test
        { freshOutput true with dpmsModePending := .Off }).2.dpmsMode
    ∧ (doAtomicCommit { calmWorld with kernel := fun _ _ => false } .Test
        { freshOutput true with dpmsModePending := .Off }).2.dpmsMode = .On :=
  (failed_dpms_keeps_confirmed { calmWorld with kernel := fun _ _ => false }
    { freshOutput true with dpmsModePending := .Off } .Test).2.1 (by decide)

/-- C5: `teardown` on a live output with a flip pending marks it deleted,
keeps the flip pending and makes two outgoing calls only (hiding the cursor
and blanking): no `deleteLater`.  `pageFlipped` on a deleted output is
exactly: clear the flip-pending flag and call `deleteLater`; no buffer slot
changes and nothing else is called, so there is no promotion and no deferred
power-off.  `teardown` on a live output with no flip pending ends with
`deleteLater`.  `teardown` on a deleted output changes nothing.  No entry
point ever clears the deleted mark, and after `pageFlipped` no flip is
pending. -/
theorem teardown_defers_deletion (w : World) (s : DrmOutput) :
    (s.deleted = false → s.pageFlipPending = true →
        (teardown w s).deleted = true ∧ (teardown w s).pageFlipPending = true
          ∧ (teardown w s).log = s.log ++ [.drmModeSetCursor 0 0 0, .crtcBlank])
    ∧ (s.deleted = true →
        pageFlipped w s = ({ s with pageFlipPending := false } : DrmOutput).emit .deleteLater)
    ∧ (s.deleted = false → s.pageFlipPending = false →
        (teardown w s).deleted = true
          ∧ (teardown w s).log = s.log ++ [.drmModeSetCursor 0 0 0, .crtcBlank, .deleteLater])
    ∧ (s.deleted = true → teardown w s = s)
    ∧ (s.deleted = true → ∀ op, (step w s op).deleted = true)
    ∧ (pageFlipped w s).pageFlipPending = false := by
  refine ⟨?_, ?_, ?_, ?_, ?_, ?_⟩
  · intro hd hp
    simp [teardown, hd, hp, hideCursor, DrmOutput.call, DrmOutput.emit, DrmOutput.onPlane]
  · intro hd
    simp [pageFlipped, hd]
  · intro hd hp
    simp [teardown, hd, hp, hideCursor, DrmOutput.call, DrmOutput.emit, DrmOutput.onPlane]
  · intro hd
    simp [teardown, hd]
  · intro hd op
    exact step_keeps_deleted w s op hd
  · exact pageFlipped_clears_pending w s

theorem teardown_defers_deletion_witness :
    pageFlipped calmWorld
        (run (freshOutput true) [(calmWorld, .present (some frameA)), (calmWorld, .teardown)])
      = ({ run (freshOutput true) [(calmWorld, .present (some frameA)), (calmWorld, .teardown)]
            with pageFlipPending := false } : DrmOutput).emit .deleteLater :=
  (teardown_defers_deletion calmWorld
    (run (freshOutput true) [(calmWorld, .present (some frameA)), (calmWorld, .teardown)])).2.1
    (by decide)

theorem findFittingMode_some (a b c : Nat) (l : List Mode) :
    ∀ k i, findFittingMode a b c l k = some i →
      ∃ e, l.get? (i - k) = some e ∧ k ≤ i ∧ e.fits a b c = true := by
  induction l with
  | nil => intro k i h; simp [findFittingMode] at h
  | cons m rest ih =>
    intro k i h
    unfold findFittingMode at h
    split_ifs at h with hm
    · cases h
      exact ⟨m, by simp, le_refl _, hm⟩
    · obtain ⟨e, he, hk, hf⟩ := ih (k + 1) i h
      refine ⟨e, ?_, by omega, hf⟩
      have : i - k = (i - (k + 1)) + 1 := by omega
      rw [this]
      simpa using he

theorem findFittingMode_none (a b c : Nat) (l : List Mode) :
    ∀ k, findFittingMode a b c l k = none → ∀ e ∈ l, e.fits a b c = false := by
  induction l with
  | nil => intro k _ e he; simp at he
  | cons m rest ih =>
    intro k h e he
    unfold findFittingMode at h
    split_ifs at h with hm
    rcases List.mem_cons.1 he with rfl | h2
    · simpa using hm
    · exact ih (k + 1) h e h2

theorem isCurrentMode_self (s : DrmOutput) : isCurrentMode s s.mode = true := by
  simp [isCurrentMode, qstrcmpEq]

theorem isCurrentMode_resolution (s : DrmOutput) (m : Mode)
    (h : m.hdisplay ≠ s.mode.hdisplay ∨ m.vdisplay ≠ s.mode.vdisplay) :
    isCurrentMode s m = false := by
  cases hc : isCurrentMode s m with
  | false => rfl
  | true =>
    simp only [isCurrentMode, Bool.and_eq_true, beq_iff_eq] at hc
    rcases h with h | h
    · exact absurd hc.1.1.1.1.1.1.1.1.1.1.1.1.1.2 h
    · exact absurd hc.1.1.1.1.1.1.1.1.2 h

/-- C9 (as the claim words it, refuted): the connector advertises a single
1920x1080 at 60 Hz entry; the active mode has the same width, height and
refresh but another pixel clock.  `updateMode(1920, 1080, 60)` returns at its
first test without looking at the list: an entry matching all three fields
exists, yet afterwards `isCurrentMode` fails for every matching entry. -/
theorem updateMode_matching_entry_not_current :
    (∃ e ∈ oneModeWorld.connectorCurrentModes, e.fits 1920 1080 60 = true)
    ∧ (∀ e ∈ oneModeWorld.connectorCurrentModes, e.fits 1920 1080 60 = true →
        isCurrentMode
          (updateMode oneModeWorld { freshOutput true with mode := mode1080alt } 1920 1080 60) e
          = false) := by
  decide

/-- C9 (amended): `updateMode(width, height, refreshRate)` matches exactly on
all three fields.  When the active mode already has the three requested
values the call changes nothing.  Otherwise, reading one mode list from the
connector: if some entry has the three values, an entry with the three values
becomes the active mode, the modeset-requested flag is set, `isCurrentMode`
holds for that entry and fails for every entry of another resolution; if no
entry has the three values, the active mode and the modeset-requested flag
are unchanged. -/
theorem updateMode_exact_match (w : World) (s : DrmOutput) (width height refreshRate : Nat)
    (hl : w.connectorModes = w.connectorCurrentModes) :
    (s.mode.fits width height refreshRate = true → updateMode w s width height refreshRate = s)
    ∧ (s.mode.fits width height refreshRate = false →
        (∃ e ∈ w.connectorCurrentModes, e.fits width height refreshRate = true) →
        ∃ e ∈ w.connectorCurrentModes, e.fits width height refreshRate = true
          ∧ (updateMode w s width height refreshRate).mode = e
          ∧ (updateMode w s width height refreshRate).modesetRequested = true
          ∧ isCurrentMode (updateMode w s width height refreshRate) e = true
          ∧ ∀ e2 ∈ w.connectorCurrentModes,
              (e2.hdisplay ≠ width ∨ e2.vdisplay ≠ height) →
              isCurrentMode (updateMode w s width height refreshRate) e2 = false)
    ∧ ((∀ e ∈ w.connectorCurrentModes, e.fits width height refreshRate = false) →
        (updateMode w s width height refreshRate).mode = s.mode
          ∧ (updateMode w s width height refreshRate).modesetRequested = s.modesetRequested) := by
  refine ⟨?_, ?_, ?_⟩
  · intro h
    simp [updateMode, h]
  · intro hno ⟨e0, he0, hf0⟩
    cases hfind : findFittingMode width height refreshRate w.connectorCurrentModes 0 with
    | none => rw [findFittingMode_none _ _ _ _ 0 hfind e0 he0] at hf0; exact absurd hf0 (by decide)
    | some i =>
      obtain ⟨e, hget, _, hfit⟩ := findFittingMode_some _ _ _ _ 0 i hfind
      simp only [Nat.sub_zero] at hget
      have hmem : e ∈ w.connectorCurrentModes := List.get?_mem hget
      have hnc : isCurrentMode ((s.emit .drmModeGetConnectorCurrent).emit .drmModeGetConnector) e
          = false := by
        cases hc : isCurrentMode ((s.emit .drmModeGetConnectorCurrent).emit .drmModeGetConnector) e with
        | false => rfl
        | true =>
          exfalso
          simp only [isCurrentMode, DrmOutput.emit, Bool.and_eq_true, beq_iff_eq] at hc
          simp only [Mode.fits, Bool.and_eq_true, beq_iff_eq] at hfit
          have : s.mode.fits width height refreshRate = true := by
            simp only [Mode.fits, Bool.and_eq_true, beq_iff_eq]
            refine ⟨⟨?_, ?_⟩, ?_⟩
            · rw [← hc.1.1.1.1.1.1.1.1.1.1.1.1.1.2]; exact hfit.1.1
            · rw [← hc.1.1.1.1.1.1.1.1.2]; exact hfit.1.2
            · rw [← hc.1.1.1.2]; exact hfit.2
          rw [hno] at this; exact absurd this (by decide)
      have hum : updateMode w s width height refreshRate
          = setWaylandMode { (s.emit .drmModeGetConnectorCurrent).emit .drmModeGetConnector with
              mode := e, modesetRequested := true } := by
        simp only [updateMode, hno, Bool.false_eq_true, if_false, hfind, updateModeIndex, hl, hget,
          hnc]
      have hmode : (updateMode w s width height refreshRate).mode = e := by rw [hum]; rfl
      refine ⟨e, hmem, hfit, hmode, by rw [hum]; rfl, ?_, ?_⟩
      · have := isCurrentMode_self (updateMode w s width height refreshRate)
        rwa [hmode] at this
      · intro e2 _ hres
        apply isCurrentMode_resolution
        rw [hmode]
        simp only [Mode.fits, Bool.and_eq_true, beq_iff_eq] at hfit
        rcases hres with h | h
        · left; rw [hfit.1.1]; exact h
        · right; rw [hfit.1.2]; exact h
  · intro hall
    by_cases hs : s.mode.fits width height refreshRate = true
    · simp [updateMode, hs]
    · have hnone : findFittingMode width height refreshRate w.connectorCurrentModes 0 = none := by
        cases hfind : findFittingMode width height refreshRate w.connectorCurrentModes 0 with
        | none => rfl
        | some i =>
          obtain ⟨e, hget, _, hfit⟩ := findFittingMode_some _ _ _ _ 0 i hfind
          rw [hall e (List.get?_mem hget)] at hfit
          exact absurd hfit (by decide)
      simp [updateMode, hs, hnone, DrmOutput.emit]

theorem updateMode_exact_match_witness :
    ∃ e ∈ calmWorld.connectorCurrentModes, e.fits 2560 1440 60 = true
      ∧ (updateMode calmWorld (freshOutput true) 2560 1440 60).mode = e
      ∧ (updateMode calmWorld (freshOutput true) 2560 1440 60).modesetRequested = true
      ∧ isCurrentMode (updateMode calmWorld (freshOutput true) 2560 1440 60) e = true
      ∧ ∀ e2 ∈ calmWorld.connectorCurrentModes, (e2.hdisplay ≠ 2560 ∨ e2.vdisplay ≠ 1440) →
          isCurrentMode (updateMode calmWorld (freshOutput true) 2560 1440 60) e2 = false :=
  (updateMode_exact_match calmWorld (freshOutput true) 2560 1440 60 rfl).2.1 (by decide)
    ⟨mode1440, by decide, by decide⟩

/-- Adding half the divisor before an integer division rounds to nearest:
the result times the divisor is within half a divisor of the dividend. -/
theorem div_round_nearest (q v : Nat) (hv : 0 < v) :
    2 * q ≤ 2 * ((q + v / 2) / v * v) + v ∧ 2 * ((q + v / 2) / v * v) ≤ 2 * q + v := by
  have h1 : (q + v / 2) / v * v ≤ q + v / 2 := Nat.div_mul_le_self _ _
  have h2 : q + v / 2 < ((q + v / 2) / v + 1) * v := by
    have := Nat.lt_succ_self ((q + v / 2) / v)
    exact (Nat.div_lt_iff_lt_mul hv).1 this
  rw [Nat.add_mul, Nat.one_mul] at h2
  generalize (q + v / 2) / v * v = p at h1 h2 ⊢
  omega

/-- C11: for a mode with non-zero totals, a 32-bit clock and a 16-bit vertical
total, `refreshRateForMode` is the value the specification describes: the
base `clock * 1000000 / htotal / vtotal`, rounded to nearest at the division
by `vtotal`, doubled when interlaced, then halved when double-scan, then
divided by `vscan` when above 1; with none of the three it is the base; the
first division is the integer quotient; and the product, the rounded sum and
the doubling stay below the 64-bit limits. -/
theorem refreshRateForMode_as_specified (m : Mode) (hh : 0 < m.htotal) (hv : 0 < m.vtotal)
    (hc : m.clock < 2 ^ 32) (hvt : m.vtotal < 2 ^ 16) :
    refreshRateForMode m = refreshRateAsSpecified m
    ∧ (2 * (m.clock * 1000000 / m.htotal)
          ≤ 2 * ((m.clock * 1000000 / m.htotal + m.vtotal / 2) / m.vtotal * m.vtotal) + m.vtotal
        ∧ 2 * ((m.clock * 1000000 / m.htotal + m.vtotal / 2) / m.vtotal * m.vtotal)
          ≤ 2 * (m.clock * 1000000 / m.htotal) + m.vtotal)
    ∧ (m.flags.testBit 4 = false → m.flags.testBit 5 = false → m.vscan ≤ 1 →
        refreshRateForMode m
          = (m.clock * 1000000 / m.htotal + m.vtotal / 2) / m.vtotal)
    ∧ (m.clock * 1000000 / m.htotal * m.htotal ≤ m.clock * 1000000
        ∧ m.clock * 1000000 < (m.clock * 1000000 / m.htotal + 1) * m.htotal)
    ∧ m.clock * 1000000 < 2 ^ 63
    ∧ m.clock * 1000000 / m.htotal + m.vtotal / 2 < 2 ^ 63
    ∧ (m.clock * 1000000 / m.htotal + m.vtotal / 2) / m.vtotal * 2 < 2 ^ 64 := by
  have hq : m.clock * 1000000 / m.htotal ≤ m.clock * 1000000 := Nat.div_le_self _ _
  have hb : (m.clock * 1000000 / m.htotal + m.vtotal / 2) / m.vtotal
      ≤ m.clock * 1000000 / m.htotal + m.vtotal / 2 := Nat.div_le_self _ _
  have hprod : m.clock * 1000000 < 2 ^ 63 := by omega
  have hsum : m.clock * 1000000 / m.htotal + m.vtotal / 2 < 2 ^ 63 := by omega
  have hdbl : (m.clock * 1000000 / m.htotal + m.vtotal / 2) / m.vtotal * 2 < 2 ^ 64 := by omega
  have hmod0 : ((m.clock * 1000000 / m.htotal + m.vtotal / 2) / m.vtotal) % 2 ^ 64
      = (m.clock * 1000000 / m.htotal + m.vtotal / 2) / m.vtotal :=
    Nat.mod_eq_of_lt (by omega)
  have hmod1 : ((m.clock * 1000000 / m.htotal + m.vtotal / 2) / m.vtotal * 2) % 2 ^ 64
      = (m.clock * 1000000 / m.htotal + m.vtotal / 2) / m.vtotal * 2 :=
    Nat.mod_eq_of_lt hdbl
  have heq : refreshRateForMode m = refreshRateAsSpecified m := by
    simp only [refreshRateForMode, refreshRateAsSpecified, hmod0, hmod1]
  have hquot : m.clock * 1000000 / m.htotal * m.htotal ≤ m.clock * 1000000
      ∧ m.clock * 1000000 < (m.clock * 1000000 / m.htotal + 1) * m.htotal :=
    ⟨Nat.div_mul_le_self _ _, (Nat.div_lt_iff_lt_mul hh).1 (Nat.lt_succ_self _)⟩
  refine ⟨heq, div_round_nearest _ _ hv, ?_, hquot, hprod, hsum, hdbl⟩
  intro h4 h5 hs
  rw [heq]
  simp [refreshRateAsSpecified, h4, h5, Nat.not_lt.2 hs]

theorem refreshRateForMode_as_specified_witness :
    refreshRateForMode mode1080 = refreshRateAsSpecified mode1080
    ∧ refreshRateForMode mode1080 = 60000 :=
  ⟨(refreshRateForMode_as_specified mode1080 (by decide) (by decide) (by decide)
      (by decide)).1, by decide⟩

/-! ### A failed commit reverts the queued planes -/

theorem onPlane_reset_next (s : DrmOutput) :
    (s.onPlane (fun p => { p with next := none })).planeNext = none := by
  cases hp : s.primaryPlane <;> simp [DrmOutput.onPlane, DrmOutput.planeNext, hp]

theorem resetFlipListNext_nonempty (s : DrmOutput) (h : s.nextPlanesFlipList ≠ []) :
    (resetFlipListNext s).planeNext = none := by
  have key : ∀ (xs : List PlaneRef) (t : DrmOutput), t.planeNext = none →
      (xs.foldl (fun acc _ => acc.onPlane (fun p => { p with next := none })) t).planeNext
        = none := by
    intro xs
    induction xs with
    | nil => intro t ht; simpa using ht
    | cons x xs ih =>
      intro t _
      simp only [List.foldl_cons]
      exact ih _ (onPlane_reset_next t)
  unfold resetFlipListNext
  cases hl : s.nextPlanesFlipList with
  | nil => exact absurd hl h
  | cons x xs =>
    simp only [List.foldl_cons]
    exact key xs _ (onPlane_reset_next s)

theorem errorHandler_unfolded (s : DrmOutput) (req : Bool) :
    ∃ l, errorHandler s req
      = { resetFlipListNext { s with log := l, dpmsModePending := s.dpmsMode } with
          nextPlanesFlipList := [] } := by
  have h1 : ∃ l, (if req then s.emit .drmModeAtomicFree else s) = { s with log := l } := by
    cases req
    · exact ⟨s.log, rfl⟩
    · exact ⟨_, rfl⟩
  obtain ⟨l1, h1⟩ := h1
  unfold errorHandler
  simp only [h1]
  have h2 : ∃ l2, (if ({ s with log := l1 } : DrmOutput).dpmsMode ≠ ({ s with log := l1 } : DrmOutput).dpmsModePending then
      (if ({ ({ s with log := l1 } : DrmOutput) with dpmsModePending := s.dpmsMode } : DrmOutput).dpmsMode ≠ .On
        then dpmsFinishOff { ({ s with log := l1 } : DrmOutput) with dpmsModePending := s.dpmsMode }
        else { ({ s with log := l1 } : DrmOutput) with dpmsModePending := s.dpmsMode })
      else ({ s with log := l1 } : DrmOutput)) = { s with log := l2, dpmsModePending := s.dpmsMode } := by
    by_cases hd : s.dpmsMode = s.dpmsModePending
    · refine ⟨l1, ?_⟩
      simp only [hd, ne_eq, not_true_eq_false, if_false]
    · simp only [ne_eq, hd, not_false_eq_true, if_true]
      by_cases ho : s.dpmsMode = .On
      · exact ⟨l1, by simp [ho]⟩
      · simp only [ho, not_false_eq_true, if_true]
        unfold dpmsFinishOff
        split <;> exact ⟨_, rfl⟩
  obtain ⟨l2, h2⟩ := h2
  simp only [] at h2
  rw [h2]
  exact ⟨l2, rfl⟩

theorem errorHandler_clears_next (s : DrmOutput) (req : Bool)
    (h : s.nextPlanesFlipList ≠ []) : (errorHandler s req).planeNext = none := by
  obtain ⟨l, he⟩ := errorHandler_unfolded s req
  rw [he]
  exact resetFlipListNext_nonempty { s with log := l, dpmsModePending := s.dpmsMode } h

/-- A failing `doAtomicCommit` ends in `errorHandler`, applied to a state that
differs from the initial one in the log, the blob id and the plane only. -/
theorem doAtomicCommit_fails_through_errorHandler (w : World) (m : AtomicCommitMode)
    (s : DrmOutput) (h : (doAtomicCommit w m s).1 = false) :
    ∃ t req, Touched s t ∧ (doAtomicCommit w m s).2 = errorHandler t req := by
  unfold doAtomicCommit at h ⊢
  split at h
  · rename_i a ha
    have ta : Touched s a := by have := touched_call w s .drmModeAtomicAlloc; rwa [ha] at this
    exact ⟨a, false, ta, rfl⟩
  rename_i a ha
  have ta : Touched s a := by have := touched_call w s .drmModeAtomicAlloc; rwa [ha] at this
  split at h
  · rename_i b hb
    have tb : Touched a b := by have := touched_createModeBlob w a; rwa [hb] at this
    exact ⟨b, true, ta.chain tb, rfl⟩
  rename_i b hb
  have tb : Touched s b := by have := touched_createModeBlob w a; rw [hb] at this; exact ta.chain this
  split at h
  · rename_i p hp
    have tp : Touched b p := by have := touched_populateModeset w b; rwa [hp] at this
    exact ⟨p, true, tb.chain tp, rfl⟩
  rename_i p hp
  have tp : Touched s p := by have := touched_populateModeset w b; rw [hp] at this; exact tb.chain this
  split at h
  · rename_i q hq
    have tq : Touched p q := by have := touched_populatePlanes w p; rwa [hq] at this
    exact ⟨q, true, tp.chain tq, rfl⟩
  rename_i q hq
  have tq : Touched s q := by have := touched_populatePlanes w p; rw [hq] at this; exact tp.chain this
  split at h
  · rename_i c hc
    have tc : Touched q c := by have := touched_call w q (commitRequest m p); rwa [hc] at this
    exact ⟨c, true, tq.chain tc, rfl⟩
  · simp at h

/-- C14: `doAtomicCommit` returns true exactly when all five fallible steps
succeed (request allocation, mode blob, connector/CRTC population, plane
population, the commit request), for either commit mode.  Whenever it returns
false the flip list is empty afterwards, the "next" slot of the plane that
was queued in it is null, the flip-pending flag is as it was (so never set by
the failed commit) and the modeset-requested flag is as it was (so never
cleared by it). -/
theorem failed_commit_reverts_planes (w : World) (m : AtomicCommitMode) (s : DrmOutput) :
    ((doAtomicCommit w m s).1 = true ↔ ∀ ok ∈ commitSteps w m s, ok = true)
    ∧ ((doAtomicCommit w m s).1 = false →
        (doAtomicCommit w m s).2.nextPlanesFlipList = []
        ∧ (s.nextPlanesFlipList ≠ [] → (doAtomicCommit w m s).2.planeNext = none)
        ∧ (doAtomicCommit w m s).2.pageFlipPending = s.pageFlipPending
        ∧ (doAtomicCommit w m s).2.modesetRequested = s.modesetRequested) := by
  constructor
  · unfold doAtomicCommit commitSteps
    simp only [List.mem_cons, List.mem_singleton, forall_eq_or_imp, forall_eq, List.not_mem_nil,
      false_implies, implies_true, and_true]
    cases ha : s.call w .drmModeAtomicAlloc with
    | mk ra a =>
    cases ra with
    | false => simp
    | true =>
    simp only [true_and]
    cases hb : createModeBlob w a with
    | mk rb b =>
    cases rb with
    | false => simp
    | true =>
    simp only [true_and]
    cases hp : populateModeset w b with
    | mk rp p =>
    cases rp with
    | false => simp
    | true =>
    simp only [true_and]
    cases hq : populatePlanes w p with
    | mk rq q =>
    cases rq with
    | false => simp
    | true =>
    simp only [true_and]
    cases hc : q.call w (commitRequest m p) with
    | mk rc c =>
    cases rc <;> simp
  · intro h
    obtain ⟨t, req, ht, he⟩ := doAtomicCommit_fails_through_errorHandler w m s h
    have hlist : t.nextPlanesFlipList = s.nextPlanesFlipList := by
      obtain ⟨l, bl, pp, rfl⟩ := ht; rfl
    obtain ⟨l2, bl2, pp2, hs⟩ := errorHandler_of_touched req ht
    refine ⟨?_, ?_, ?_, ?_⟩
    · rw [he, hs]
    · intro hne
      rw [he]
      exact errorHandler_clears_next t req (by rw [hlist]; exact hne)
    · rw [he, hs]
    · rw [he, hs]

theorem failed_commit_reverts_planes_witness :
    (doAtomicCommit refusingWorld .Test (stakeBuffer (freshOutput true) frameA)).2.nextPlanesFlipList
      = []
    ∧ ((stakeBuffer (freshOutput true) frameA).nextPlanesFlipList ≠ [] →
        (doAtomicCommit refusingWorld .Test (stakeBuffer (freshOutput true) frameA)).2.planeNext
          = none)
    ∧ (doAtomicCommit refusingWorld .Test (stakeBuffer (freshOutput true) frameA)).2.pageFlipPending
      = (stakeBuffer (freshOutput true) frameA).pageFlipPending
    ∧ (doAtomicCommit refusingWorld .Test (stakeBuffer (freshOutput true) frameA)).2.modesetRequested
      = (stakeBuffer (freshOutput true) frameA).modesetRequested :=
  (failed_commit_reverts_planes refusingWorld .Test (stakeBuffer (freshOutput true) frameA)).2
    (by decide)

/-! ### Placement of the plane in a modeset -/

/-- C15 (the code at the failing input): mode 1920x1080, hardware transform
active, "next" buffer 1440x1080.  The source rectangle is the buffer's size
in 16.16 fixed point at the origin, and the aspect-preserving scaled size is
1440x1080, so a centred destination would be x = 240, width = 1440.  The code
moves the left edge with `QRect::setX`, which keeps the right edge: it writes
CrtcX = 240 and CrtcW = 1200, a rectangle ending at column 1440 instead of
1680, neither of the scaled width nor centred. -/
theorem modeset_destination_not_centered :
    hardwareTransforms (stakeBuffer (freshOutput true) narrowFrame) = true
    ∧ scaledKeepAspect (1440, 1080) (1920, 1080) = (1440, 1080)
    ∧ narrowPlacement.map (fun p => (p.srcX, p.srcY, p.srcW, p.srcH))
        = some (0, 0, 1440 * 65536, 1080 * 65536)
    ∧ narrowPlacement.map (fun p => (p.crtcX, p.crtcY, p.crtcW, p.crtcH))
        = some (240, 0, 1200, 1080)
    ∧ narrowPlacement.map (fun p => decide (p.crtcX = Int.tdiv (1920 - p.crtcW) 2)) = some false
    ∧ targetRectFor (1920, 1080) (1920, 1080) = { x1 := 0, y1 := 0, x2 := 1919, y2 := 1079 } := by
  decide

/-! ### Cursor buffers -/

theorem cursorAt_setCursorAt (s : DrmOutput) (i : Nat) (x : Option DrmDumbBuffer) :
    (s.setCursorAt i x).cursorAt i = x := by
  unfold DrmOutput.setCursorAt DrmOutput.cursorAt
  split <;> simp [*]

theorem setCursorAt_keeps (s : DrmOutput) (i : Nat) (x : Option DrmDumbBuffer) :
    (s.setCursorAt i x).cursorIndex = s.cursorIndex
    ∧ (s.setCursorAt i x).hasNewCursor = s.hasNewCursor
    ∧ (s.setCursorAt i x).log = s.log
    ∧ (if i = 0 then (s.setCursorAt i x).cursor1 = s.cursor1
        else (s.setCursorAt i x).cursor0 = s.cursor0) := by
  unfold DrmOutput.setCursorAt
  split <;> simp [*]

/-- C12 (as the claim words it, refuted): a cursor update followed by two
successful shows.  The second show binds slot 1, the slot the active index
names after the first show, and finds no new image, so the index stays at 1.
The next update draws into slot 1: the slot most recently bound to the
hardware by a successful show. -/
theorem cursor_drawn_into_bound_slot :
    afterFirstShow.cursorIndex = 1
    ∧ (showCursor cursorWorld afterFirstShow).1 = true
    ∧ afterSecondShow.log = [.drmModeSetCursor 7 64 64, .drmModeSetCursor 8 64 64]
    ∧ afterSecondShow.cursorIndex = 1
    ∧ afterSecondShow.cursor1.map (fun c => (c.handle, c.picture)) = some (8, 0)
    ∧ (updateCursor cursorWorld afterSecondShow).1 = true
    ∧ (updateCursor cursorWorld afterSecondShow).2.cursor1.map (fun c => (c.handle, c.picture))
        = some (8, 5) := by
  decide

/-- C12 (amended): on a live output whose active slot holds buffer `c`,
`showCursor` binds the slot at the active index; when the kernel call fails it
returns false and leaves the index and the new-image flag alone; when it
succeeds with the new-image flag set it flips the index (to the other slot)
and clears the flag; when it succeeds with the flag clear it leaves the index
on the slot just bound.  `updateCursor` never changes the index; when it
draws it sets the flag and paints the slot at the active index, leaving the
other slot alone.  So a draw goes into the slot not bound by the most recent
successful show exactly when that show found a new image. -/
theorem cursor_double_buffering (w : World) (s : DrmOutput) (c : DrmDumbBuffer)
    (hd : s.deleted = false) (hc : s.cursorAt s.cursorIndex = some c) :
    (showCursor w s).2.log = s.log ++ [.drmModeSetCursor c.handle c.width c.height]
    ∧ (w.kernel s.log (.drmModeSetCursor c.handle c.width c.height) = false →
        (showCursor w s).1 = false
          ∧ (showCursor w s).2.cursorIndex = s.cursorIndex
          ∧ (showCursor w s).2.hasNewCursor = s.hasNewCursor)
    ∧ (w.kernel s.log (.drmModeSetCursor c.handle c.width c.height) = true →
        s.hasNewCursor = true →
        (showCursor w s).1 = true
          ∧ (showCursor w s).2.cursorIndex = (s.cursorIndex + 1) % 2
          ∧ (showCursor w s).2.cursorIndex ≠ s.cursorIndex
          ∧ (showCursor w s).2.hasNewCursor = false)
    ∧ (w.kernel s.log (.drmModeSetCursor c.handle c.width c.height) = true →
        s.hasNewCursor = false →
        (showCursor w s).1 = true
          ∧ (showCursor w s).2.cursorIndex = s.cursorIndex
          ∧ (showCursor w s).2.hasNewCursor = false)
    ∧ (updateCursor w s).2.cursorIndex = s.cursorIndex
    ∧ ((updateCursor w s).1 = true →
        (updateCursor w s).2.hasNewCursor = true
          ∧ (∃ img, w.cursorImage = some img
              ∧ (updateCursor w s).2.cursorAt s.cursorIndex
                = some { c with dprNum := w.scaleNum, dprDen := w.scaleDen,
                                picture := img.picture })
          ∧ (if s.cursorIndex = 0 then (updateCursor w s).2.cursor1 = s.cursor1
              else (updateCursor w s).2.cursor0 = s.cursor0)) := by
  refine ⟨?_, ?_, ?_, ?_, ?_, ?_⟩
  · simp only [showCursor, hd, hc, showCursorBuffer, DrmOutput.call, DrmOutput.emit]
    simp only [Bool.false_eq_true, if_false]
    split_ifs <;> rfl
  · intro hk
    simp [showCursor, hd, hc, showCursorBuffer, DrmOutput.call, DrmOutput.emit, hk]
  · intro hk hn
    have hne : (s.cursorIndex + 1) % 2 ≠ s.cursorIndex := by omega
    simp [showCursor, hd, hc, showCursorBuffer, DrmOutput.call, DrmOutput.emit, hk, hn, hne]
  · intro hk hn
    simp [showCursor, hd, hc, showCursorBuffer, DrmOutput.call, DrmOutput.emit, hk, hn]
  · obtain ⟨c0, c1, hn, h⟩ := updateCursor_shape w s
    rw [h]
  · intro hr
    cases hi : w.cursorImage with
    | none => simp [updateCursor, hd, hi] at hr
    | some img =>
      by_cases hz : s.cursorIndex = 0
      · have hc0 : s.cursor0 = some c := by simpa [DrmOutput.cursorAt, hz] using hc
        simp only [updateCursor, hd, hi, DrmOutput.cursorAt, DrmOutput.setCursorAt, hz, hc0,
          Bool.false_eq_true, if_false, if_true] at hr ⊢
        split_ifs at hr ⊢
        simp
      · have hc1 : s.cursor1 = some c := by simpa [DrmOutput.cursorAt, hz] using hc
        simp only [updateCursor, hd, hi, DrmOutput.cursorAt, DrmOutput.setCursorAt, hz, hc1,
          Bool.false_eq_true, if_false, if_true] at hr ⊢
        split_ifs at hr ⊢
        simp

theorem cursor_double_buffering_witness :
    (showCursor cursorWorld (run (freshOutput true) [(cursorWorld, .updateCursor)])).1 = true
    ∧ (showCursor cursorWorld
        (run (freshOutput true) [(cursorWorld, .updateCursor)])).2.cursorIndex = (0 + 1) % 2
    ∧ (showCursor cursorWorld
        (run (freshOutput true) [(cursorWorld, .updateCursor)])).2.cursorIndex ≠ 0
    ∧ (showCursor cursorWorld
        (run (freshOutput true) [(cursorWorld, .updateCursor)])).2.hasNewCursor = false :=
  (cursor_double_buffering cursorWorld (run (freshOutput true) [(cursorWorld, .updateCursor)])
    { handle := 7, width := 64, height := 64, dprNum := 1, dprDen := 1, picture := 5 }
    (by decide) (by decide)).2.2.1 (by decide) (by decide)

/-! ### Cursor sprite compatibility -/

theorem rectContains_false_iff (bw bh sw sh : Int) :
    rectContains bw bh sw sh = false ↔
      ((bw = 0 ∧ bh = 0) ∨ (sw = 0 ∧ sh = 0) ∨ sw > bw ∨ sh > bh) := by
  unfold rectContains
  split_ifs with h1 h2 h3
  · simp only [true_iff]
    rcases h1 with h | h
    · exact Or.inl h
    · exact Or.inr (Or.inl h)
  · simp only [true_iff]
    exact Or.inr (Or.inr (Or.inl (by omega)))
  · simp only [true_iff]
    exact Or.inr (Or.inr (Or.inr (by omega)))
  · simp only [Bool.true_eq_false, false_iff]
    rintro (h | h | h | h)
    · exact h1 (Or.inl h)
    · exact h1 (Or.inr h)
    · omega
    · omega

/-- Rounding the exact quotient half up keeps the order of logical lengths. -/
theorem divRound_mono (n1 m1 d1 n2 m2 d2 : Nat) (hm1 : 0 < m1) (hm2 : 0 < m2)
    (h : logicalLe n1 m1 d1 n2 m2 d2 = true) : divRound n1 m1 d1 ≤ divRound n2 m2 d2 := by
  have h0 : n1 * d1 * m2 ≤ n2 * d2 * m1 := by simpa [logicalLe] using h
  unfold divRound
  rw [Nat.le_div_iff_mul_le (by omega)]
  have hA : (2 * n1 * d1 + m1) / (2 * m1) * (2 * m1) ≤ 2 * n1 * d1 + m1 :=
    Nat.div_mul_le_self _ _
  generalize (2 * n1 * d1 + m1) / (2 * m1) = A at hA ⊢
  apply Nat.le_of_mul_le_mul_left _ hm1
  calc m1 * (A * (2 * m2)) = A * (2 * m1) * m2 := by ring
    _ ≤ (2 * n1 * d1 + m1) * m2 := Nat.mul_le_mul_right _ hA
    _ = 2 * (n1 * d1 * m2) + m1 * m2 := by ring
    _ ≤ 2 * (n2 * d2 * m1) + m1 * m2 := by omega
    _ = m1 * (2 * n2 * d2 + m2) := by ring

theorem calmWorld_roundingMonotone : roundingMonotone calmWorld :=
  fun n1 m1 d1 n2 m2 d2 h1 h2 h => divRound_mono n1 m1 d1 n2 m2 d2 h1 h2 h

/-- C13 (as the claim words it, refuted): the comparison is made on logical
sizes rounded to whole pixels.  With a 64x64 buffer at output scale 3/2
(logical width 42.67, which `QSize / qreal` rounds to 43) a 43x43 sprite at
scale 1 is wider than the buffer in logical units, yet `updateCursor` returns
true, sets the new-image flag and draws.  With the buffer at scale 1, a
one-pixel sprite at scale 3 (logical size 0.33, rounded to 0x0, a null
rectangle) is smaller than the buffer, yet `updateCursor` reports it
incompatible. -/
theorem cursor_compatibility_is_rounded :
    logicalLe 43 1 1 64 3 2 = false
    ∧ fractionalWorld.qRoundDiv 64 3 2 = 43
    ∧ fractionalWorld.qRoundDiv 43 1 1 = 43
    ∧ (updateCursor fractionalWorld (freshOutput true)).1 = true
    ∧ (updateCursor fractionalWorld (freshOutput true)).2.hasNewCursor = true
    ∧ (updateCursor fractionalWorld (freshOutput true)).2.cursor0.map (fun c => c.picture)
        = some 5
    ∧ logicalLe 1 3 1 64 1 1 = true
    ∧ tinySpriteWorld.qRoundDiv 1 3 1 = 0
    ∧ tinySpriteWorld.qRoundDiv 64 1 1 = 64
    ∧ (updateCursor tinySpriteWorld (freshOutput true)).1 = false := by
  decide

/-- C13 (amended): on a live output with a sprite `img` and the active cursor
buffer `c`, `updateCursor` compares the logical sizes as `QSize / qreal` gives
them, each length rounded to a whole number of pixels, the buffer's being
taken at the output scale.  It returns false exactly when the sprite's rounded
width or height exceeds the buffer's, or one of the two rounded sizes is 0x0;
it then leaves the new-image flag and the log alone and paints nothing (the
buffer only gets the output scale).  As the rounding keeps the order of the
exact quotients, a sprite whose logical width and height are at most the
buffer's is accepted unless one of the rounded sizes is 0x0. -/
theorem updateCursor_compatibility (w : World) (s : DrmOutput) (c : DrmDumbBuffer)
    (img : CursorImage) (hd : s.deleted = false) (hc : s.cursorAt s.cursorIndex = some c)
    (hi : w.cursorImage = some img) :
    ((updateCursor w s).1 = false ↔
      ((w.qRoundDiv c.width w.scaleNum w.scaleDen = 0
          ∧ w.qRoundDiv c.height w.scaleNum w.scaleDen = 0)
        ∨ (w.qRoundDiv img.width img.dprNum img.dprDen = 0
          ∧ w.qRoundDiv img.height img.dprNum img.dprDen = 0)
        ∨ w.qRoundDiv img.width img.dprNum img.dprDen
            > w.qRoundDiv c.width w.scaleNum w.scaleDen
        ∨ w.qRoundDiv img.height img.dprNum img.dprDen
            > w.qRoundDiv c.height w.scaleNum w.scaleDen))
    ∧ ((updateCursor w s).1 = false →
        (updateCursor w s).2.hasNewCursor = s.hasNewCursor
          ∧ (updateCursor w s).2.log = s.log
          ∧ (updateCursor w s).2.cursorAt s.cursorIndex
              = some { c with dprNum := w.scaleNum, dprDen := w.scaleDen }
          ∧ (if s.cursorIndex = 0 then (updateCursor w s).2.cursor1 = s.cursor1
              else (updateCursor w s).2.cursor0 = s.cursor0))
    ∧ (roundingMonotone w → 0 < w.scaleNum → 0 < img.dprNum →
        logicalLe img.width img.dprNum img.dprDen c.width w.scaleNum w.scaleDen = true →
        logicalLe img.height img.dprNum img.dprDen c.height w.scaleNum w.scaleDen = true →
        ¬(w.qRoundDiv c.width w.scaleNum w.scaleDen = 0
            ∧ w.qRoundDiv c.height w.scaleNum w.scaleDen = 0) →
        ¬(w.qRoundDiv img.width img.dprNum img.dprDen = 0
            ∧ w.qRoundDiv img.height img.dprNum img.dprDen = 0) →
        (updateCursor w s).1 = true) := by
  have hres : (updateCursor w s).1
      = isCursorSpriteCompatible w { c with dprNum := w.scaleNum, dprDen := w.scaleDen } img := by
    simp only [updateCursor, hd, hi, hc, Bool.false_eq_true, if_false]
    split_ifs with h
    · simp only [Bool.not_eq_true'] at h
      rw [h]
    · simp only [Bool.not_eq_true', Bool.not_eq_false] at h
      rw [h]
  have hiff : (updateCursor w s).1 = false ↔
      ((w.qRoundDiv c.width w.scaleNum w.scaleDen = 0
          ∧ w.qRoundDiv c.height w.scaleNum w.scaleDen = 0)
        ∨ (w.qRoundDiv img.width img.dprNum img.dprDen = 0
          ∧ w.qRoundDiv img.height img.dprNum img.dprDen = 0)
        ∨ w.qRoundDiv img.width img.dprNum img.dprDen
            > w.qRoundDiv c.width w.scaleNum w.scaleDen
        ∨ w.qRoundDiv img.height img.dprNum img.dprDen
            > w.qRoundDiv c.height w.scaleNum w.scaleDen) := by
    rw [hres]
    unfold isCursorSpriteCompatible
    rw [rectContains_false_iff]
    simp only [Nat.cast_eq_zero, gt_iff_lt, Nat.cast_lt]
  refine ⟨hiff, ?_, ?_⟩
  · intro hr
    rw [hres] at hr
    by_cases hz : s.cursorIndex = 0
    · have hc0 : s.cursor0 = some c := by simpa [DrmOutput.cursorAt, hz] using hc
      simp [updateCursor, hd, hi, DrmOutput.cursorAt, DrmOutput.setCursorAt, hz, hc0, hr]
    · have hc1 : s.cursor1 = some c := by simpa [DrmOutput.cursorAt, hz] using hc
      simp [updateCursor, hd, hi, DrmOutput.cursorAt, DrmOutput.setCursorAt, hz, hc1, hr]
  · intro hmono hs hp hw hh hnb hns
    cases hr : (updateCursor w s).1 with
    | true => rfl
    | false =>
      exfalso
      rcases hiff.1 hr with h | h | h | h
      · exact hnb h
      · exact hns h
      · have := hmono _ _ _ _ _ _ hp hs hw
        omega
      · have := hmono _ _ _ _ _ _ hp hs hh
        omega

theorem updateCursor_compatibility_witness :
    (updateCursor cursorWorld (freshOutput true)).1 = true :=
  (updateCursor_compatibility cursorWorld (freshOutput true)
    { handle := 7, width := 64, height := 64, dprNum := 1, dprDen := 1, picture := 0 }
    { width := 32, height := 32, dprNum := 1, dprDen := 1, picture := 5 }
    (by decide) (by decide) (by decide)).2.2
    calmWorld_roundingMonotone
    (by decide) (by decide) (by decide) (by decide) (by decide) (by decide)

/-! ### A plane holding a "next" buffer is queued for flipping -/

theorem Kept.here (s : DrmOutput) : Kept s s := ⟨Touched.same s, fun h => h⟩

theorem Kept.andThen {s t u : DrmOutput} (h1 : Kept s t) (h2 : Kept t u) : Kept s u :=
  ⟨h1.1.chain h2.1, fun h => h2.2 (h1.2 h)⟩

theorem kept_emit (s : DrmOutput) (e : Event) : Kept s (s.emit e) :=
  ⟨touched_emit s e, fun h => h⟩

theorem kept_call (w : World) (s : DrmOutput) (e : Event) : Kept s (s.call w e).2 :=
  kept_emit s e

theorem kept_onPlane (s : DrmOutput) (f : DrmPlane → DrmPlane)
    (hf : ∀ p, p.next = none → (f p).next = none) : Kept s (s.onPlane f) := by
  refine ⟨touched_onPlane s f, ?_⟩
  intro h
  cases hp : s.primaryPlane with
  | none => simp [DrmOutput.planeNext, DrmOutput.onPlane, hp]
  | some p =>
    have hn : p.next = none := by simpa [DrmOutput.planeNext, hp] using h
    simp [DrmOutput.planeNext, DrmOutput.onPlane, hp, hf p hn]

theorem kept_populatePlanes (w : World) (s : DrmOutput) : Kept s (populatePlanes w s).2 := by
  obtain ⟨l, h⟩ := populatePlanes_shape w s
  refine ⟨touched_populatePlanes w s, ?_⟩
  intro hn
  rw [h]; exact hn

theorem kept_modesetPopulate (w : World) (s : DrmOutput) (enable : Bool) :
    Kept s (atomicReqModesetPopulate w s enable).2 := by
  unfold atomicReqModesetPopulate
  cases enable
  · exact (kept_onPlane s _ (fun p h => rfl)).andThen
      ((kept_call w _ _).andThen (kept_call w _ _))
  · have h1 : ∀ f : DrmPlane → DrmPlane, (∀ p, p.next = none → (f p).next = none) →
        Kept s ((DrmOutput.call w (DrmOutput.call w (s.onPlane f)
          (.atomicPopulate .connector)).2 (.atomicPopulate .crtc)).2) :=
      fun f hf => (kept_onPlane s f hf).andThen ((kept_call w _ _).andThen (kept_call w _ _))
    exact h1 _ (fun p h => h)

theorem kept_createModeBlob (w : World) (s : DrmOutput) : Kept s (createModeBlob w s).2 := by
  unfold createModeBlob
  split
  · split
    · rename_i s1 h
      have := kept_call w s (.drmModeCreatePropertyBlob s.mode)
      rw [h] at this
      exact this.andThen ⟨⟨_, w.blobId, _, rfl⟩, fun h => h⟩
    · rename_i s1 h
      have := kept_call w s (.drmModeCreatePropertyBlob s.mode)
      rw [h] at this
      exact this
  · exact Kept.here s

theorem kept_populateModeset (w : World) (s : DrmOutput) : Kept s (populateModeset w s).2 := by
  unfold populateModeset
  split
  · exact kept_modesetPopulate w s _
  · exact Kept.here s

theorem kept_dpmsFinishOff (s : DrmOutput) : Kept s (dpmsFinishOff s) := by
  unfold dpmsFinishOff
  split
  · exact (kept_emit s _).andThen ((kept_emit _ _).andThen (kept_emit _ _))
  · exact (kept_emit s _).andThen (kept_emit _ _)

theorem resetFlipListNext_keeps_none (s : DrmOutput) (h : s.planeNext = none) :
    (resetFlipListNext s).planeNext = none := by
  rcases resetFlipListNext_shape s with e | e
  · rw [e]; exact h
  · rw [e]; exact onPlane_reset_next s

theorem errorHandler_keeps_none (s : DrmOutput) (req : Bool) (h : s.planeNext = none) :
    (errorHandler s req).planeNext = none := by
  obtain ⟨l, he⟩ := errorHandler_unfolded s req
  rw [he]
  exact resetFlipListNext_keeps_none { s with log := l, dpmsModePending := s.dpmsMode } h

/-- A commit, whatever its outcome, leaves an empty "next" slot empty. -/
theorem doAtomicCommit_keeps_none (w : World) (m : AtomicCommitMode) (s : DrmOutput)
    (h : s.planeNext = none) : (doAtomicCommit w m s).2.planeNext = none := by
  unfold doAtomicCommit
  split
  · rename_i a ha
    have ka : Kept s a := by have := kept_call w s .drmModeAtomicAlloc; rwa [ha] at this
    exact errorHandler_keeps_none _ _ (ka.2 h)
  rename_i a ha
  have ka : Kept s a := by have := kept_call w s .drmModeAtomicAlloc; rwa [ha] at this
  split
  · rename_i b hb
    have kb : Kept a b := by have := kept_createModeBlob w a; rwa [hb] at this
    exact errorHandler_keeps_none _ _ ((ka.andThen kb).2 h)
  rename_i b hb
  have kb : Kept s b := by have := kept_createModeBlob w a; rw [hb] at this; exact ka.andThen this
  split
  · rename_i p hp
    have kp : Kept b p := by have := kept_populateModeset w b; rwa [hp] at this
    exact errorHandler_keeps_none _ _ ((kb.andThen kp).2 h)
  rename_i p hp
  have kp : Kept s p := by have := kept_populateModeset w b; rw [hp] at this; exact kb.andThen this
  split
  · rename_i q hq
    have kq : Kept p q := by have := kept_populatePlanes w p; rwa [hq] at this
    exact errorHandler_keeps_none _ _ ((kp.andThen kq).2 h)
  rename_i q hq
  have kq : Kept s q := by have := kept_populatePlanes w p; rw [hq] at this; exact kp.andThen this
  split
  · rename_i c hc
    have kc : Kept q c := by have := kept_call w q (commitRequest m p); rwa [hc] at this
    exact errorHandler_keeps_none _ _ ((kq.andThen kc).2 h)
  rename_i c hc
  have kc : Kept s c := by
    have := kept_call w q (commitRequest m p); rw [hc] at this; exact kq.andThen this
  have hc2 := kc.2 h
  simp only []
  split
  · exact hc2
  · exact hc2

theorem dpmsAtomicOff_next (w : World) (s : DrmOutput) :
    (dpmsAtomicOff w s).2.planeNext = none := by
  unfold dpmsAtomicOff
  simp only []
  generalize hs3 : ({ ({ s with atomicOffPending := false } : DrmOutput).onPlane
      (fun p => { p with next := none }) with
      nextPlanesFlipList := (({ s with atomicOffPending := false } : DrmOutput).onPlane
        (fun p => { p with next := none })).nextPlanesFlipList ++ [PlaneRef.primary] } : DrmOutput)
      = s3
  have h3 : s3.planeNext = none := by
    rw [← hs3]; exact onPlane_reset_next { s with atomicOffPending := false }
  have ht := doAtomicCommit_keeps_none w .Test s3 h3
  have hr := doAtomicCommit_keeps_none w .Real _ ht
  split
  · exact ht
  · split
    · exact hr
    · exact (kept_dpmsFinishOff _).2 hr

theorem queued_of_none {t : DrmOutput} (h : t.planeNext = none) : Queued t :=
  fun hn => absurd h hn

theorem queued_of_same {s t : DrmOutput} (hp : t.planeNext = s.planeNext)
    (hl : t.nextPlanesFlipList = s.nextPlanesFlipList) (hq : Queued s) : Queued t := by
  intro hn
  rw [hl]
  exact hq (by rw [← hp]; exact hn)

theorem doAtomicCommit_failed_next (w : World) (m : AtomicCommitMode) (s : DrmOutput)
    (h : (doAtomicCommit w m s).1 = false) (hne : s.nextPlanesFlipList ≠ []) :
    (doAtomicCommit w m s).2.planeNext = none := by
  obtain ⟨t, req, ht, he⟩ := doAtomicCommit_fails_through_errorHandler w m s h
  have hlist : t.nextPlanesFlipList = s.nextPlanesFlipList := by
    obtain ⟨l, bl, pp, rfl⟩ := ht; rfl
  rw [he]
  exact errorHandler_clears_next t req (by rw [hlist]; exact hne)

theorem doAtomicCommit_ok_list (w : World) (m : AtomicCommitMode) (s : DrmOutput)
    (h : (doAtomicCommit w m s).1 = true) :
    (doAtomicCommit w m s).2.nextPlanesFlipList = s.nextPlanesFlipList := by
  rcases doAtomicCommit_shape w m s with ⟨hf, _⟩ | ⟨_, l, bl, pp, he⟩
  · rw [h] at hf; exact absurd hf (by decide)
  · rw [he]

theorem rollback_planeNext (w : World) (s : DrmOutput) :
    (rollback w s).planeNext = s.planeNext
    ∧ (rollback w s).nextPlanesFlipList = s.nextPlanesFlipList := by
  unfold rollback
  split
  · simp only [setWaylandMode, DrmOutput.emit]
    have hx : ∀ x : DrmOutput,
        x.planeNext = s.planeNext → x.nextPlanesFlipList = s.nextPlanesFlipList →
        (if (!w.isCursorHidden) = true then (showCursor w (updateCursor w x).2).2 else x).planeNext
          = s.planeNext
        ∧ (if (!w.isCursorHidden) = true then (showCursor w (updateCursor w x).2).2
            else x).nextPlanesFlipList = s.nextPlanesFlipList := by
      intro x h1 h2
      split
      · obtain ⟨c0, c1, idx, hn, l, h⟩ := cursorRefresh_shape w x
        rw [h]; exact ⟨h1, h2⟩
      · exact ⟨h1, h2⟩
    refine hx _ ?_ rfl
    cases hp : s.primaryPlane <;> simp [DrmOutput.planeNext, DrmOutput.onPlane, hp]
  · exact ⟨rfl, rfl⟩

theorem presentLegacy_queue (w : World) (s : DrmOutput) (b : DrmBuffer) :
    (presentLegacy w s b).2.primaryPlane = s.primaryPlane
    ∧ (presentLegacy w s b).2.nextPlanesFlipList = s.nextPlanesFlipList := by
  unfold presentLegacy
  simp only [setModeLegacy, DrmOutput.call, DrmOutput.emit]
  split_ifs <;> simp

theorem stakeBuffer_list (s : DrmOutput) (b : DrmBuffer) :
    (stakeBuffer s b).nextPlanesFlipList ≠ [] := by
  simp [stakeBuffer, DrmOutput.onPlane]

theorem presentAtomically_queued (w : World) (s : DrmOutput) (b : DrmBuffer) (hq : Queued s) :
    Queued (presentAtomically w s b).2 := by
  have hs := stakeBuffer_list s b
  unfold presentAtomically
  split_ifs
  · exact hq
  · exact hq
  · exact queued_of_same rfl rfl hq
  · split
    · rename_i t ht
      have h1 := doAtomicCommit_failed_next w .Test (stakeBuffer s b) (by rw [ht]) hs
      rw [ht] at h1
      exact queued_of_none (by rw [(rollback_planeNext w t).1]; exact h1)
    · rename_i t ht
      have h1 := doAtomicCommit_ok_list w .Test (stakeBuffer s b) (by rw [ht])
      rw [ht] at h1
      have ht2 : t.nextPlanesFlipList ≠ [] := by rw [h1]; exact hs
      split
      · rename_i r hr
        have h2 := doAtomicCommit_failed_next w .Real t (by rw [hr]) ht2
        rw [hr] at h2
        exact queued_of_none h2
      · rename_i r hr
        have h2 := doAtomicCommit_ok_list w .Real t (by rw [hr])
        rw [hr] at h2
        intro _
        simp only []
        split
        · simp only [storeWorkingState, DrmOutput.emit]
          rw [h2]; exact ht2
        · show r.nextPlanesFlipList ≠ []
          rw [h2]; exact ht2

theorem onPlane_flip_none (t : DrmOutput) (h : t.planeNext = none) :
    t.onPlane DrmPlane.flipBuffer = t := by
  cases t with
  | mk a1 a2 a3 a4 pp a6 a7 a8 a9 a10 a11 a12 a13 a14 a15 a16 a17 a18 a19 a20 a21 a22 a23 a24 =>
    cases pp with
    | none => rfl
    | some p =>
      have hn : p.next = none := by simpa [DrmOutput.planeNext] using h
      simp [DrmOutput.onPlane, DrmPlane.flipBuffer, hn]

theorem foldl_flip_none (xs : List PlaneRef) (t : DrmOutput) (h : t.planeNext = none) :
    xs.foldl (fun acc _ => acc.onPlane DrmPlane.flipBuffer) t = t := by
  induction xs with
  | nil => rfl
  | cons x xs ih => simp only [List.foldl_cons, onPlane_flip_none t h, ih]

/-- Flipping the queued planes, when the primary plane holds a "next" buffer
and the queue is not empty: that buffer becomes "current" and the "next" slot
is emptied, however often the plane is queued. -/
theorem flipPlanes_promotes (s : DrmOutput) (p : DrmPlane) (b : DrmBuffer)
    (hp : s.primaryPlane = some p) (hb : p.next = some b) (hl : s.nextPlanesFlipList ≠ []) :
    flipPlanes s = { s with primaryPlane := some { p with current := some b, next := none } } := by
  have h1 : s.onPlane DrmPlane.flipBuffer
      = { s with primaryPlane := some { p with current := some b, next := none } } := by
    simp [DrmOutput.onPlane, hp, DrmPlane.flipBuffer, hb]
  have key : ∀ xs : List PlaneRef, xs ≠ [] →
      xs.foldl (fun acc _ => acc.onPlane DrmPlane.flipBuffer) s
        = { s with primaryPlane := some { p with current := some b, next := none } } := by
    intro xs hx
    cases xs with
    | nil => exact absurd rfl hx
    | cons x xs =>
      simp only [List.foldl_cons]
      rw [h1]
      exact foldl_flip_none xs
        { s with primaryPlane := some { p with current := some b, next := none } } rfl
  exact key _ hl

theorem flipPlanes_keeps_none (s : DrmOutput) (h : s.planeNext = none) : flipPlanes s = s :=
  foldl_flip_none _ s h

theorem flipPlanes_next (s : DrmOutput) (hl : s.nextPlanesFlipList ≠ []) :
    (flipPlanes s).planeNext = none := by
  cases hp : s.primaryPlane with
  | none =>
    have : s.planeNext = none := by simp [DrmOutput.planeNext, hp]
    rw [flipPlanes_keeps_none s this]; exact this
  | some p =>
    cases hb : p.next with
    | none =>
      have : s.planeNext = none := by simp [DrmOutput.planeNext, hp, hb]
      rw [flipPlanes_keeps_none s this]; exact this
    | some b =>
      rw [flipPlanes_promotes s p b hp hb hl]
      rfl

theorem pageFlipped_queued (w : World) (s : DrmOutput) (hq : Queued s) :
    Queued (pageFlipped w s) := by
  unfold pageFlipped
  simp only []
  split_ifs with h1 h2 h3 h4 h5 h6
  · exact queued_of_same rfl rfl hq
  · exact queued_of_same rfl rfl hq
  · split
    · exact queued_of_same rfl rfl hq
    · exact queued_of_same rfl rfl hq
  · exact queued_of_none (dpmsAtomicOff_next w _)
  · -- atomic, a "next" buffer is there: the planes are flipped
    have hn : s.planeNext ≠ none := by
      intro hn
      apply h3
      simp only [h4, Bool.true_and]
      show (s.planeNext).isNone = true
      rw [hn]; rfl
    have hl : ({ s with pageFlipPending := false } : DrmOutput).nextPlanesFlipList ≠ [] := hq hn
    exact queued_of_none (flipPlanes_next _ hl)
  · exact queued_of_none (dpmsAtomicOff_next w _)
  · split <;> exact queued_of_same rfl rfl hq

theorem dpmsFinishOn_queue (w : World) (s : DrmOutput) :
    (dpmsFinishOn w s).primaryPlane = s.primaryPlane
    ∧ (dpmsFinishOn w s).nextPlanesFlipList = s.nextPlanesFlipList := by
  unfold dpmsFinishOn
  split <;> simp [DrmOutput.emit]

theorem dpmsLegacyApply_queue (w : World) (s : DrmOutput) :
    (dpmsLegacyApply w s).2.primaryPlane = s.primaryPlane
    ∧ (dpmsLegacyApply w s).2.nextPlanesFlipList = s.nextPlanesFlipList := by
  unfold dpmsLegacyApply
  simp only [DrmOutput.call]
  split
  · exact ⟨rfl, rfl⟩
  · split
    · simp [dpmsFinishOn_queue, DrmOutput.emit]
    · obtain ⟨l, h⟩ := dpmsFinishOff_log (s.emit (.drmModeConnectorSetProperty s.dpmsModePending))
      rw [h]; exact ⟨rfl, rfl⟩

theorem planeNext_congr {s t : DrmOutput} (h : t.primaryPlane = s.primaryPlane) :
    t.planeNext = s.planeNext := by
  simp [DrmOutput.planeNext, h]

theorem updateDpms_queued (w : World) (s : DrmOutput) (mode : DpmsMode) (hq : Queued s) :
    Queued (updateDpms w s mode) := by
  unfold updateDpms
  simp only []
  split_ifs
  · exact hq
  · exact queued_of_same rfl rfl hq
  · exact queued_of_same (planeNext_congr (dpmsFinishOn_queue w _).1) (dpmsFinishOn_queue w _).2 hq
  · exact queued_of_same (planeNext_congr (dpmsFinishOn_queue w _).1) (dpmsFinishOn_queue w _).2 hq
  · exact queued_of_none (dpmsAtomicOff_next w _)
  · exact queued_of_same rfl rfl hq
  · exact queued_of_same (planeNext_congr (dpmsLegacyApply_queue w _).1)
      (dpmsLegacyApply_queue w _).2 hq

theorem updateEnablement_queued (w : World) (s : DrmOutput) (enable : Bool) (hq : Queued s) :
    Queued (updateEnablement w s enable) := by
  unfold updateEnablement atomicEnable atomicDisable
  simp only []
  split_ifs
  all_goals first
    | exact queued_of_none (dpmsAtomicOff_next w _)
    | exact queued_of_same rfl rfl hq
    | exact queued_of_same (planeNext_congr (dpmsLegacyApply_queue w _).1)
        (dpmsLegacyApply_queue w _).2 hq

theorem teardown_queued (w : World) (s : DrmOutput) (hq : Queued s) : Queued (teardown w s) := by
  have hp : (s.onPlane (fun p => { p with current := none })).planeNext = s.planeNext := by
    cases hp : s.primaryPlane <;> simp [DrmOutput.planeNext, DrmOutput.onPlane, hp]
  unfold teardown
  simp only [hideCursor, DrmOutput.call, DrmOutput.emit]
  split_ifs
  · exact hq
  · exact queued_of_same hp rfl hq
  · exact queued_of_same hp rfl hq

theorem updateTransform_queued (w : World) (s : DrmOutput) (t : Transform) (hq : Queued s) :
    Queued (updateTransform w s t) := by
  have hp : ∀ f : DrmPlane → DrmPlane, (∀ p, (f p).next = p.next) →
      (s.onPlane f).planeNext = s.planeNext := by
    intro f hf
    cases hp : s.primaryPlane <;> simp [DrmOutput.planeNext, DrmOutput.onPlane, hp, hf]
  unfold updateTransform
  simp only []
  split
  · generalize hx : ({ (DrmOutput.onPlane _ _) with modesetRequested := true } : DrmOutput) = x
    obtain ⟨c0, c1, idx, hn, l, h⟩ := cursorRefresh_shape w x
    rw [h, ← hx]
    refine queued_of_same (hp _ ?_) rfl hq
    intro p; split <;> rfl
  · refine queued_of_same (hp _ ?_) rfl hq
    intro p; split <;> rfl

theorem updateModeIndex_queued (w : World) (s : DrmOutput) (i : Nat) (hq : Queued s) :
    Queued (updateModeIndex w s i) := by
  unfold updateModeIndex
  simp only [setWaylandMode, DrmOutput.emit]
  split
  · exact queued_of_same rfl rfl hq
  · split_ifs <;> exact queued_of_same rfl rfl hq

theorem updateMode_queued (w : World) (s : DrmOutput) (a b c : Nat) (hq : Queued s) :
    Queued (updateMode w s a b c) := by
  unfold updateMode
  simp only []
  split_ifs
  · exact hq
  · split
    · exact updateModeIndex_queued w _ _ (queued_of_same rfl rfl hq)
    · exact queued_of_same rfl rfl hq

/-- Every entry point keeps a plane that holds a "next" buffer queued. -/
theorem step_queued (w : World) (s : DrmOutput) (op : Op) (hq : Queued s) :
    Queued (step w s op) := by
  cases op with
  | teardown => exact teardown_queued w s hq
  | updateEnablement e => exact updateEnablement_queued w s e hq
  | updateDpms m => exact updateDpms_queued w s m hq
  | updateTransform t => exact updateTransform_queued w s t hq
  | updateMode a b c => exact updateMode_queued w s a b c hq
  | updateModeIndex i => exact updateModeIndex_queued w s i hq
  | pageFlipped => exact pageFlipped_queued w s hq
  | showCursor =>
    obtain ⟨idx, hn, l, h⟩ := showCursor_shape w s
    show Queued (showCursor w s).2
    rw [h]; exact queued_of_same rfl rfl hq
  | updateCursor =>
    obtain ⟨c0, c1, hn, h⟩ := updateCursor_shape w s
    show Queued (updateCursor w s).2
    rw [h]; exact queued_of_same rfl rfl hq
  | hideCursor => exact queued_of_same rfl rfl hq
  | present buf =>
    cases buf with
    | none => exact hq
    | some b0 =>
      show Queued (present w s (some b0)).2
      unfold present
      simp only []
      split_ifs
      · exact hq
      · exact hq
      · exact presentAtomically_queued w s b0 hq
      · exact queued_of_same (planeNext_congr (presentLegacy_queue w s b0).1)
          (presentLegacy_queue w s b0).2 hq

theorem run_queued (ops : List (World × Op)) :
    ∀ s : DrmOutput, Queued s → Queued (run s ops) := by
  induction ops with
  | nil => intro s hq; exact hq
  | cons x rest ih =>
    intro s hq
    obtain ⟨w, op⟩ := x
    exact ih _ (step_queued w s op hq)

/-- C4 (as the claim words it, refuted), at two live outputs whose primary
plane holds the buffer `frameA` as "next".  First, an output without a CRTC
(`m_crtc` is null): `pageFlipped` clears the flip-pending flag and returns at
its `if (!m_crtc)` guard, so the buffer is still "next" and nothing is
"current".  Second, an output whose power-off was deferred while the flip was
outstanding: `pageFlipped` goes on to `dpmsAtomicOff`, whose modeset
population detaches the plane (`setCurrent(nullptr)`, `setNext(nullptr)`), so
after the call the plane has no "current" buffer. -/
theorem pageFlipped_without_promotion :
    flipOutstandingNoCrtc.deleted = false
    ∧ flipOutstandingNoCrtc.planeNext = some frameA
    ∧ (pageFlipped calmWorld flipOutstandingNoCrtc).pageFlipPending = false
    ∧ (pageFlipped calmWorld flipOutstandingNoCrtc).planeNext = some frameA
    ∧ (pageFlipped calmWorld flipOutstandingNoCrtc).planeCurrent = none
    ∧ offDeferred.deleted = false
    ∧ offDeferred.hasCrtc = true
    ∧ offDeferred.planeNext = some frameA
    ∧ (pageFlipped calmWorld offDeferred).planeCurrent = none := by
  decide

/-- C4 (amended): on an output that is not marked for teardown `pageFlipped`
clears the flip-pending flag.  Without a CRTC it does nothing else.  With a
CRTC, atomic path: a primary plane with no "next" buffer keeps both slots, and
so does the CRTC; a primary plane holding a "next" buffer and queued in the
flip list gets that buffer as "current", its "next" slot and the flip list are
emptied, and when a power-off was deferred `dpmsAtomicOff` then runs on the
state so obtained.  With a CRTC, legacy path: a CRTC holding a "next" buffer
gets it as "current" and its "next" slot is emptied, a CRTC with no "next"
buffer keeps both slots, and the plane is untouched.  In every state reached
from one whose plane has no "next" buffer, a plane that holds a "next" buffer
is queued in the flip list. -/
theorem pageFlipped_promotion (w : World) (s : DrmOutput) (hd : s.deleted = false) :
    (pageFlipped w s).pageFlipPending = false
    ∧ (s.hasCrtc = false → pageFlipped w s = { s with pageFlipPending := false })
    ∧ (s.hasCrtc = true → s.atomicModeSetting = true → s.planeNext = none →
        (pageFlipped w s).primaryPlane = s.primaryPlane ∧ (pageFlipped w s).crtc = s.crtc)
    ∧ (s.hasCrtc = true → s.atomicModeSetting = true →
        ∀ p b, s.primaryPlane = some p → p.next = some b → s.nextPlanesFlipList ≠ [] →
        pageFlipped w s
          = if s.atomicOffPending then
              (dpmsAtomicOff w { s with
                pageFlipPending := false,
                primaryPlane := some { p with current := some b, next := none },
                nextPlanesFlipList := [] }).2
            else
              { s with
                pageFlipPending := false,
                primaryPlane := some { p with current := some b, next := none },
                nextPlanesFlipList := [] })
    ∧ (s.hasCrtc = true → s.atomicModeSetting = false →
        (∀ b, s.crtc.next = some b →
          (pageFlipped w s).crtc = { s.crtc with current := some b, next := none })
        ∧ (s.crtc.next = none → (pageFlipped w s).crtc = s.crtc)
        ∧ (s.atomicOffPending = false → (pageFlipped w s).primaryPlane = s.primaryPlane))
    ∧ (∀ (s0 : DrmOutput) (ops : List (World × Op)),
        s0.planeNext = none → s = run s0 ops → s.planeNext ≠ none →
        s.nextPlanesFlipList ≠ []) := by
  have hoffc : ∀ t : DrmOutput, (dpmsAtomicOff w t).2.crtc = t.crtc := by
    intro t
    obtain ⟨l, bl, pp, pend, lst, mr, dm, h⟩ := dpmsAtomicOff_frame w t
    rw [h]
  refine ⟨pageFlipped_clears_pending w s, ?_, ?_, ?_, ?_, ?_⟩
  · intro hc
    simp [pageFlipped, hd, hc]
  · intro hc ha hn
    have hn2 : s.primaryPlane.bind (fun p => p.next) = none := hn
    unfold pageFlipped
    simp only [hd, hc, ha, DrmOutput.planeNext, hn2, Option.isNone_none, Bool.and_self, if_true,
      Bool.false_eq_true, if_false, Bool.not_true]
    split <;> simp [DrmOutput.emit]
  · intro hc ha p b hp hb hl
    have hf := flipPlanes_promotes { s with pageFlipPending := false } p b hp hb hl
    have hn : (({ s with pageFlipPending := false } : DrmOutput).planeNext).isNone = false := by
      simp [DrmOutput.planeNext, hp, hb]
    have e1 : (s.deleted = true) = False := by simp [hd]
    have e2 : ((!s.hasCrtc) = true) = False := by simp [hc]
    have e4 : (s.atomicModeSetting = true) = True := by simp [ha]
    unfold pageFlipped
    simp only []
    generalize hs0 : ({ s with pageFlipPending := false } : DrmOutput) = s0 at hf hn ⊢
    simp only [e1, e2, e4, hn, Bool.and_false, Bool.false_eq_true, if_false, if_true]
    rw [hf]
    subst hs0
    rfl
  · intro hc ha
    refine ⟨?_, ?_, ?_⟩
    · intro b hb
      unfold pageFlipped
      simp only [hd, hc, ha, Bool.false_and, Bool.false_eq_true, if_false, Bool.not_true, hb]
      split <;> simp [hoffc, DrmCrtc.flipBuffer, hb]
    · intro hb
      unfold pageFlipped
      simp only [hd, hc, ha, Bool.false_and, Bool.false_eq_true, if_false, Bool.not_true, hb]
      split <;> split <;> simp [hoffc, DrmCrtc.flipBuffer, hb, DrmOutput.emit]
    · intro ho
      unfold pageFlipped
      simp only [hd, hc, ha, Bool.false_and, Bool.false_eq_true, if_false, Bool.not_true]
      cases hcn : s.crtc.next <;> cases hcc : s.crtc.current <;>
        simp [ho, DrmOutput.emit]
  · intro s0 ops h0 hs
    rw [hs]
    exact run_queued ops s0 (queued_of_none h0)

theorem pageFlipped_promotion_witness :
    (pageFlipped calmWorld
        (run (freshOutput false) [(calmWorld, .present (some frameA))])).crtc
      = { (run (freshOutput false) [(calmWorld, .present (some frameA))]).crtc with
          current := some frameA, next := none } :=
  ((pageFlipped_promotion calmWorld
    (run (freshOutput false) [(calmWorld, .present (some frameA))]) (by decide)).2.2.2.2.1
    (by decide) (by decide)).1 frameA (by decide)

/-! ### The commit style of an output never changes -/

/-- The assumption on `DrmCrtc::blank` in the legacy clause cannot be dropped:
`presentLegacy` never reads the flip-pending flag, only the CRTC's "next"
slot.  If `DrmCrtc::blank` empties the CRTC's slots (as `blankingWorld` has
it), enabling a legacy output again while a flip is outstanding leaves the
flip-pending flag set with an empty "next" slot, and a second present is
accepted. -/
theorem emptying_blank_lets_present_through :
    ¬ blankKeepsNext blankingWorld
    ∧ (run (freshOutput false)
        [(calmWorld, .present (some frameA)), (blankingWorld, .updateEnablement true)]).pageFlipPending
      = true
    ∧ (present calmWorld
        (run (freshOutput false)
          [(calmWorld, .present (some frameA)), (blankingWorld, .updateEnablement true)])
        (some frameB)).1 = true := by
  refine ⟨?_, by decide, by decide⟩
  intro h
  exact h { id := 0, current := none, next := some frameA } (by simp) rfl

/-! ### Legacy submission -/

theorem presentAtomically_records (w : World) (s : DrmOutput) (b : DrmBuffer)
    (h : (presentAtomically w s b).1 = true) (hm : s.modesetRequested = true) :
    (presentAtomically w s b).2.lastWorkingState.valid = true
    ∧ (presentAtomically w s b).2.lastWorkingState.config = (presentAtomically w s b).2.config := by
  have hT := testCommit_keeps w s b
  unfold presentAtomically at h ⊢
  by_cases h1 : (!w.sessionActive) = true
  · simp [h1] at h
  by_cases h2 : s.pageFlipPending = true
  · simp [h1, h2] at h
  have h3 : ¬ ((s.useEglStreams && !s.modesetRequested) = true) := by simp [hm]
  simp only [h1, h2, h3, if_false] at h ⊢
  cases hte : doAtomicCommit w .Test (stakeBuffer s b) with
  | mk rt t =>
    rw [hte] at hT
    simp only [hte] at h ⊢
    cases rt with
    | false => simp at h
    | true =>
      simp only [] at h ⊢
      have hmt : t.modesetRequested = true := (hT.2.2 rfl).trans hm
      cases hre : doAtomicCommit w .Real t with
      | mk rr r =>
        simp only [hre] at h ⊢
        cases rr with
        | false => simp at h
        | true =>
          simp only [hmt, if_true]
          obtain ⟨e1, e2, e3⟩ := storeWorkingState_config r
          exact ⟨e1, e2.trans e3.symm⟩

/-- What one entry point does to the last-working snapshot: a successful
present with a modeset makes it valid and equal to the mode, transform and
position then in effect; every other step leaves it as it was. -/
theorem step_snapshot (w : World) (s : DrmOutput) (op : Op) :
    (isModesetPresent w s op = true →
        (step w s op).lastWorkingState.valid = true
        ∧ (step w s op).lastWorkingState.config = (step w s op).config)
    ∧ (isModesetPresent w s op = false →
        (step w s op).lastWorkingState = s.lastWorkingState) := by
  cases op with
  | teardown => exact ⟨fun h => by simp [isModesetPresent] at h, fun _ => teardown_lws w s⟩
  | updateEnablement e =>
    exact ⟨fun h => by simp [isModesetPresent] at h, fun _ => updateEnablement_lws w s e⟩
  | updateDpms m =>
    exact ⟨fun h => by simp [isModesetPresent] at h, fun _ => updateDpms_lws w s m⟩
  | updateTransform t =>
    exact ⟨fun h => by simp [isModesetPresent] at h, fun _ => updateTransform_lws w s t⟩
  | updateMode a b c =>
    exact ⟨fun h => by simp [isModesetPresent] at h, fun _ => updateMode_lws w s a b c⟩
  | updateModeIndex i =>
    exact ⟨fun h => by simp [isModesetPresent] at h, fun _ => updateModeIndex_lws w s i⟩
  | pageFlipped =>
    exact ⟨fun h => by simp [isModesetPresent] at h, fun _ => pageFlipped_lws w s⟩
  | showCursor =>
    refine ⟨fun h => by simp [isModesetPresent] at h, fun _ => ?_⟩
    obtain ⟨idx, hn, l, h⟩ := showCursor_shape w s
    show (showCursor w s).2.lastWorkingState = _; rw [h]
  | updateCursor =>
    refine ⟨fun h => by simp [isModesetPresent] at h, fun _ => ?_⟩
    obtain ⟨c0, c1, hn, h⟩ := updateCursor_shape w s
    show (updateCursor w s).2.lastWorkingState = _; rw [h]
  | hideCursor => exact ⟨fun h => by simp [isModesetPresent] at h, fun _ => rfl⟩
  | present buf =>
    cases buf with
    | none => exact ⟨fun h => by simp [isModesetPresent] at h, fun _ => rfl⟩
    | some b0 =>
      show (isModesetPresent w s (.present (some b0)) = true →
          (present w s (some b0)).2.lastWorkingState.valid = true
          ∧ (present w s (some b0)).2.lastWorkingState.config = (present w s (some b0)).2.config)
        ∧ (isModesetPresent w s (.present (some b0)) = false →
          (present w s (some b0)).2.lastWorkingState = s.lastWorkingState)
      simp only [isModesetPresent]
      by_cases g1 : b0.bufferId = 0
      · simp [present, g1]
      by_cases g2 : s.dpmsModePending = .On
      swap
      · simp [present, g1, g2]
      cases g3 : s.atomicModeSetting with
      | false =>
        have e : present w s (some b0) = presentLegacy w s b0 := by
          simp [present, g1, g2, g3]
        rw [e]
        exact ⟨fun h => by simp at h, fun _ => presentLegacy_lws w s b0⟩
      | true =>
        have e : present w s (some b0) = presentAtomically w s b0 := by
          simp [present, g1, g2, g3]
        rw [e]
        constructor
        · intro h
          simp only [Bool.true_and, Bool.and_eq_true] at h
          exact presentAtomically_records w s b0 h.2 h.1
        · intro h
          rcases presentAtomically_lws w s b0 with hl | ⟨ha, hb, _, _⟩
          · exact hl
          · simp [ha, hb] at h

theorem run_snapshot (ops : List (World × Op)) :
    ∀ (s : DrmOutput) (acc : Option (Mode × Transform × (Int × Int))),
      SnapshotIs s acc → SnapshotIs (run s ops) (lastModesetConfig s ops acc) := by
  induction ops with
  | nil => intro s acc h; exact h
  | cons x rest ih =>
    intro s acc h
    obtain ⟨w, op⟩ := x
    show SnapshotIs (run (step w s op) rest)
      (lastModesetConfig (step w s op) rest
        (if isModesetPresent w s op then some (step w s op).config else acc))
    apply ih
    cases hm : isModesetPresent w s op with
    | true =>
      simp only [if_true]
      exact ⟨((step_snapshot w s op).1 hm).1, ((step_snapshot w s op).1 hm).2⟩
    | false =>
      simp only [Bool.false_eq_true, if_false]
      have e := (step_snapshot w s op).2 hm
      cases acc with
      | none => show (step w s op).lastWorkingState.valid = false; rw [e]; exact h
      | some c =>
        show (step w s op).lastWorkingState.valid = true
          ∧ (step w s op).lastWorkingState.config = c
        rw [e]; exact h

/-! ### Rollback after a rejected test commit -/

/-- C2 (as the claim words it, refuted): the snapshot is written by a
successful `present` with a modeset and by nothing else; the power-off
transaction `dpmsAtomicOff` commits a modeset without writing it.  First
output: a modeset was presented at 1080p, then 1440p was selected and the
output powered off (a real commit with `ALLOW_MODESET` succeeds while 1440p
is the active mode) and on again; the test commit of the next present is
rejected, and the mode afterwards is 1080p, which is neither the mode before
the attempt nor the mode in effect at the most recent modeset commit.  Second
output: powered off at 1080p before anything was presented (a modeset commit
succeeds), then 1440p selected and powered on; the snapshot is not valid
although a modeset commit has succeeded, and after the rejected test commit
the mode is 1440p, not the 1080p in effect at that commit. -/
theorem rollback_ignores_power_off_modeset :
    offOnAfterModeChange.mode = mode1440
    ∧ (run (freshOutput true)
        [(calmWorld, .updateEnablement true), (calmWorld, .present (some frameA)),
         (calmWorld, .pageFlipped), (calmWorld, .updateMode 2560 1440 60)]).mode = mode1440
    ∧ Event.drmModeAtomicCommit .Real true false false ∈
        newEvents
          (run (freshOutput true)
            [(calmWorld, .updateEnablement true), (calmWorld, .present (some frameA)),
             (calmWorld, .pageFlipped), (calmWorld, .updateMode 2560 1440 60)])
          (run (freshOutput true)
            [(calmWorld, .updateEnablement true), (calmWorld, .present (some frameA)),
             (calmWorld, .pageFlipped), (calmWorld, .updateMode 2560 1440 60),
             (calmWorld, .updateDpms .Off)])
    ∧ (run (freshOutput true)
        [(calmWorld, .updateEnablement true), (calmWorld, .present (some frameA)),
         (calmWorld, .pageFlipped), (calmWorld, .updateMode 2560 1440 60),
         (calmWorld, .updateDpms .Off)]).dpmsMode = .Off
    ∧ (present refusingWorld offOnAfterModeChange (some frameB)).1 = false
    ∧ (present refusingWorld offOnAfterModeChange (some frameB)).2.mode = mode1080
    ∧ (freshOutput true).mode = mode1080
    ∧ Event.drmModeAtomicCommit .Real true false false ∈
        newEvents (freshOutput true) (run (freshOutput true) [(calmWorld, .updateDpms .Off)])
    ∧ offOnBeforePresent.lastWorkingState.valid = false
    ∧ (present refusingWorld offOnBeforePresent (some frameB)).1 = false
    ∧ (present refusingWorld offOnBeforePresent (some frameB)).2.mode = mode1440 := by
  decide

/-- C2 (amended): when the test commit of an atomic present fails (whatever
the cause), `present` returns false and leaves the last-working snapshot
alone; with a valid snapshot the mode, transform and global position
afterwards are the snapshot's, and with no valid snapshot they are what they
were before the call.  The snapshot is what the most recent successful
`present` with a modeset left: along every run that starts with no valid
snapshot, the snapshot is valid exactly when some step of the run was a
`present` that returned true after a real commit with a modeset, and it then
holds the mode, transform and position in effect at the end of the most
recent such step; no other step changes it, the power-off transaction
included. -/
theorem rejected_test_commit_rolls_back (w : World) (s : DrmOutput) (b : DrmBuffer)
    (hid : b.bufferId ≠ 0) (hon : s.dpmsModePending = .On) (hat : s.atomicModeSetting = true)
    (hs : w.sessionActive = true) (hp : s.pageFlipPending = false)
    (he : (s.useEglStreams && !s.modesetRequested) = false)
    (ht : (doAtomicCommit w .Test (stakeBuffer s b)).1 = false) :
    (present w s (some b)).1 = false
    ∧ (present w s (some b)).2.lastWorkingState = s.lastWorkingState
    ∧ (s.lastWorkingState.valid = true →
        (present w s (some b)).2.config = s.lastWorkingState.config)
    ∧ (s.lastWorkingState.valid = false → (present w s (some b)).2.config = s.config)
    ∧ (∀ (s0 : DrmOutput) (ops : List (World × Op)),
        s0.lastWorkingState.valid = false → s = run s0 ops →
        match lastModesetConfig s0 ops none with
        | some c => s.lastWorkingState.valid = true ∧ (present w s (some b)).2.config = c
        | none => s.lastWorkingState.valid = false ∧ (present w s (some b)).2.config = s.config)
    ∧ (∀ (w0 : World) (s0 : DrmOutput) (op : Op),
        (isModesetPresent w0 s0 op = true →
          (step w0 s0 op).lastWorkingState.valid = true
          ∧ (step w0 s0 op).lastWorkingState.config = (step w0 s0 op).config)
        ∧ (isModesetPresent w0 s0 op = false →
          (step w0 s0 op).lastWorkingState = s0.lastWorkingState)) := by
  have hpres : present w s (some b)
      = (false, rollback w (doAtomicCommit w .Test (stakeBuffer s b)).2) := by
    simp only [present, hid, hon, hat, presentAtomically, hs, hp, he, if_false, if_true,
      ne_eq, not_true_eq_false, Bool.not_true, Bool.false_eq_true]
    split
    · rename_i t h; rw [h]
    · rename_i t h; rw [h] at ht; exact absurd ht (by simp)
  have hT := testCommit_keeps w s b
  have hR := rollback_config w (doAtomicCommit w .Test (stakeBuffer s b)).2
  rw [hT.1] at hR
  have c3 : s.lastWorkingState.valid = true →
      (present w s (some b)).2.config = s.lastWorkingState.config := by
    intro hv; rw [hpres]; exact hR.2.1 hv
  have c4 : s.lastWorkingState.valid = false → (present w s (some b)).2.config = s.config := by
    intro hv; rw [hpres]; show (rollback w _).config = _; rw [hR.2.2 hv]; exact hT.2.1
  refine ⟨by rw [hpres], ?_, c3, c4, ?_, fun w0 s0 op => step_snapshot w0 s0 op⟩
  · rw [hpres]; exact hR.1
  · intro s0 ops h0 hrun
    have hsn : SnapshotIs s (lastModesetConfig s0 ops none) := by
      rw [hrun]; exact run_snapshot ops s0 none h0
    cases hl : lastModesetConfig s0 ops none with
    | none =>
      rw [hl] at hsn
      exact ⟨hsn, c4 hsn⟩
    | some c =>
      rw [hl] at hsn
      exact ⟨hsn.1, (c3 hsn.1).trans hsn.2⟩

theorem rejected_test_commit_rolls_back_witness :
    (present refusingWorld
      (run (freshOutput true)
        [(calmWorld, .updateEnablement true), (calmWorld, .present (some frameA)),
         (calmWorld, .pageFlipped), (calmWorld, .updateMode 2560 1440 60)])
      (some frameB)).1 = false
    ∧ (present refusingWorld
      (run (freshOutput true)
        [(calmWorld, .updateEnablement true), (calmWorld, .present (some frameA)),
         (calmWorld, .pageFlipped), (calmWorld, .updateMode 2560 1440 60)])
      (some frameB)).2.config = (mode1080, Transform.Normal, ((0 : Int), (0 : Int))) :=
  ⟨(rejected_test_commit_rolls_back refusingWorld
      (run (freshOutput true)
        [(calmWorld, .updateEnablement true), (calmWorld, .present (some frameA)),
         (calmWorld, .pageFlipped), (calmWorld, .updateMode 2560 1440 60)]) frameB
      (by decide) (by decide) (by decide) (by decide) (by decide) (by decide) (by decide)).1,
   (rejected_test_commit_rolls_back refusingWorld
      (run (freshOutput true)
        [(calmWorld, .updateEnablement true), (calmWorld, .present (some frameA)),
         (calmWorld, .pageFlipped), (calmWorld, .updateMode 2560 1440 60)]) frameB
      (by decide) (by decide) (by decide) (by decide) (by decide) (by decide) (by decide)).2.2.1
      (by decide)⟩

end KWin
